import Mathlib

/-!
Verification of the warehouse metrics/placement repository.

Shallow embedding of `src/metrics_report.py` and `src/placement_service.py`.

Modelling conventions:
* A pandas `DataFrame` is a `DF α`: an ordered list of column names plus an
  ordered list of rows; each row is an association list from column name to
  `Cell α`.  `Cell.null` models `NaN`/missing, `Cell.num` a numeric value,
  `Cell.str` a string value.  Machine floats are modelled as values of a
  linear ordered field `α` (instantiated with `ℚ` or `ℝ` in the theorems).
* `np.sqrt` is an explicit function parameter `sqrt : α → α`; the real
  execution corresponds to `α := ℝ`, `sqrt := Real.sqrt`.
* Fallible pandas operations (column selection with a missing column,
  `merge` on a missing key column) return `Except String _`, modelling the
  `KeyError` that pandas raises.
* pandas behaviours modelled faithfully: `Series.mean`/`Series.sum` skip
  nulls; `groupby` drops null keys (`dropna=True`); `groupby(...).agg('first')`
  takes the first non-null value; boolean comparison of a null cell with a
  string is `False`; `merge` matches null keys with null keys.
* `groupby` sorts group keys, but no computed metric depends on the order of
  the groups, so groups are listed in first-occurrence order here.
-/

namespace Inventory

/-- One cell of a data frame: null (`NaN`), a number, or a string. -/
inductive Cell (α : Type) where
  | null : Cell α
  | num  : α → Cell α
  | str  : String → Cell α
deriving DecidableEq

/-- One data-frame row: an association list from column name to cell. -/
abbrev Row (α : Type) := List (String × Cell α)

/-- A data frame: ordered column names and ordered rows. -/
structure DF (α : Type) where
  cols : List String
  rows : List (Row α)
deriving DecidableEq

variable {α : Type} [LinearOrderedField α] [DecidableEq α]

/-- Read one cell of a row; a missing entry reads as null. -/
def getCell (r : Row α) (c : String) : Cell α :=
  ((r.find? (fun e => e.1 = c)).map Prod.snd).getD Cell.null

/-- Overwrite (or create) one entry of a row. -/
def setEntry (r : Row α) (c : String) (v : Cell α) : Row α :=
  r.filter (fun e => e.1 ≠ c) ++ [(c, v)]

/-- Column assignment `df[c] = v` with a scalar right-hand side: broadcast `v` to every row,
creating the column if it is absent. -/
def setColConst (df : DF α) (c : String) (v : Cell α) : DF α :=
  ⟨if df.cols.contains c then df.cols else df.cols ++ [c],
   df.rows.map (fun r => setEntry r c v)⟩

/-- Column assignment `df[c] = f(df)` with a row-wise right-hand side. -/
def setColMap (df : DF α) (c : String) (f : Row α → Cell α) : DF α :=
  ⟨if df.cols.contains c then df.cols else df.cols ++ [c],
   df.rows.map (fun r => setEntry r c (f r))⟩

/-- Column selection `df[[c₁, …, cₙ]]`; raises (`KeyError`) when one of the
requested columns is absent. -/
def selectCols (df : DF α) (cs : List String) : Except String (DF α) :=
  if cs.all df.cols.contains then
    Except.ok ⟨cs, df.rows.map (fun r => cs.map (fun c => (c, getCell r c)))⟩
  else Except.error "KeyError: columns not in index"

/-- The numeric value of a cell, if any. -/
def toNum : Cell α → Option α
  | Cell.num x => some x
  | _ => none

/-- pandas `notna`: every cell except null is considered present. -/
def notna (c : Cell α) : Bool := c ≠ Cell.null

/-- The defined (non-null, numeric) values of one column, in row order;
this is what pandas `sum`/`mean` aggregate over (they skip `NaN`). -/
def colVals (df : DF α) (c : String) : List α :=
  df.rows.filterMap (fun r => toNum (getCell r c))

/-- pandas `Series.sum` over a column: sum of the defined values (0 if none). -/
def seriesSum (df : DF α) (c : String) : α := (colVals df c).sum

/-- pandas `Series.mean` over a list of defined values: null if none. -/
def seriesMean (xs : List α) : Option α :=
  if xs.isEmpty then none else some (xs.sum / (xs.length : α))

/-! ## The KPI engine (`compute_kpis`, src/metrics_report.py lines 71–147) -/

/-- Line 76: per-row Euclidean distance `sqrt(x_coord² + y_coord²)`;
null when a coordinate is undefined (`np.sqrt` of `NaN` is `NaN`). -/
def distCell (sqrt : α → α) (r : Row α) : Cell α :=
  match toNum (getCell r "x_coord"), toNum (getCell r "y_coord") with
  | some x, some y => Cell.num (sqrt (x ^ 2 + y ^ 2))
  | _, _ => Cell.null

/-- Lines 74–78: the working layout table with its `distance` column.  When
both coordinate columns are present the distances are computed (on a copy);
otherwise a null `distance` column is assigned to the input table itself. -/
def layout_with_distance (sqrt : α → α) (layout : DF α) : DF α :=
  if layout.cols.contains "x_coord" && layout.cols.contains "y_coord" then
    setColMap layout "distance" (distCell sqrt)
  else
    setColConst layout "distance" Cell.null

/-- The four optional placement columns of lines 81–83. -/
def optional_placement_cols : List String :=
  ["allocated_volume", "allocated_weight", "remaining_size", "remaining_weight"]

/-- One step of lines 81–83: create the column, filled null, if absent. -/
def ensure_step (df : DF α) (c : String) : DF α :=
  if df.cols.contains c then df else setColConst df c Cell.null

/-- Lines 81–83: create (in place) each absent optional column, filled null. -/
def ensure_columns (placements : DF α) : DF α :=
  optional_placement_cols.foldl ensure_step placements

/-- Whether two cells are matched by a pandas merge key comparison
(null keys match null keys). -/
def keyMatch (a b : Cell α) : Bool := a = b

/-- Line 85: left-join each placement row to the selected layout columns by
`recommended_location = location_id`.  Raises (`KeyError`) when the
placements table has no `recommended_location` column.  The selected layout
columns are assumed column-disjoint from the placement columns (true of the
spec's data model), so no `_x`/`_y` suffixing arises. -/
def merge_layout (p lsel : DF α) : Except String (DF α) :=
  if p.cols.contains "recommended_location" then
    Except.ok ⟨p.cols ++ lsel.cols,
      p.rows.flatMap (fun r =>
        let ms := lsel.rows.filter
          (fun lr => keyMatch (getCell lr "location_id") (getCell r "recommended_location"))
        if ms.isEmpty then [r ++ lsel.cols.map (fun c => (c, Cell.null))]
        else ms.map (fun lr => r ++ lr))⟩
  else Except.error "KeyError: recommended_location"

/-- Line 88: the placed subset — rows whose `recommended_location` is
present and not the sentinel string `UNPLACED`. -/
def placed_of (merged : DF α) : DF α :=
  ⟨merged.cols,
   merged.rows.filter (fun r =>
     notna (getCell r "recommended_location") &&
     getCell r "recommended_location" ≠ Cell.str "UNPLACED")⟩

/-- Line 90: mean distance over the placed subset, null when it is empty
(and null when every distance is null, since `mean` skips nulls). -/
def avg_distance_of (placed : DF α) : Option α :=
  if placed.rows.isEmpty then none else seriesMean (colVals placed "distance")

/-- Line 91: fraction of joined rows whose `recommended_location` is the
string `UNPLACED`; null when the joined table is empty.  A null
`recommended_location` compares unequal to the string, so such rows count
in the denominator only. -/
def unplaced_rate_of (merged : DF α) : Option α :=
  if merged.rows.isEmpty then none
  else some
    (((merged.rows.countP (fun r => getCell r "recommended_location" = Cell.str "UNPLACED") : ℕ) : α)
      / (merged.rows.length : α))

/-- Line 94: placed rows with a defined `allocated_volume`. -/
def alloc_rows_of (placed : DF α) : DF α :=
  ⟨placed.cols, placed.rows.filter (fun r => notna (getCell r "allocated_volume"))⟩

/-- The distinct non-null `recommended_location` keys of a row list, in
first-occurrence order (`groupby` drops null keys; its sorting of the keys
does not affect any derived metric). -/
def groupKeys (rows : List (Row α)) : List (Cell α) :=
  rows.foldl
    (fun acc r =>
      let k := getCell r "recommended_location"
      if k = Cell.null then acc else if acc.contains k then acc else acc ++ [k])
    []

/-- One shelf-utilization aggregate group (lines 100–103): a location key,
the summed allocated volume, and the group's `first` non-null `max_size`. -/
structure ShelfGroup (α : Type) where
  key : Cell α
  allocated_volume : α
  max_size : Cell α
deriving DecidableEq

/-- Lines 100–103: group the allocation rows by `recommended_location`,
summing `allocated_volume` and taking the first non-null `max_size`. -/
def shelf_util_of (alloc : DF α) : List (ShelfGroup α) :=
  (groupKeys alloc.rows).map (fun k =>
    let grp := alloc.rows.filter (fun r => getCell r "recommended_location" = k)
    ⟨k, (grp.filterMap (fun r => toNum (getCell r "allocated_volume"))).sum,
     ((grp.map (fun r => getCell r "max_size")).find? (fun c => notna c)).getD Cell.null⟩)

/-- Line 104: group utilization `allocated_volume / max_size.replace(0, NaN)`;
null when `max_size` is null (or non-numeric) or zero. -/
def utilization (g : ShelfGroup α) : Option α :=
  match toNum g.max_size with
  | some m => if m = 0 then none else some (g.allocated_volume / m)
  | none => none

/-- Line 105: mean utilization over the groups (null utilizations skipped);
null when no allocation rows exist. -/
def avg_cube_utilization_of (alloc : DF α) : Option α :=
  if alloc.rows.isEmpty then none
  else seriesMean ((shelf_util_of alloc).filterMap utilization)

/-- Line 106: fraction of groups with utilization strictly between 0 and
1/10; null when no allocation rows exist (groups of a non-empty allocation
table are never empty, so the inner emptiness guard of line 106 matches). -/
def fragmentation_rate_of (alloc : DF α) : Option α :=
  if alloc.rows.isEmpty then none
  else
    let groups := shelf_util_of alloc
    if groups.length = 0 then none
    else some
      (((groups.countP
          (fun g => (utilization g).elim false (fun u => decide (0 < u ∧ u < 1 / 10))) : ℕ) : α)
        / (groups.length : α))

/-- Line 98: total allocated volume (0.0 when no row qualifies). -/
def total_allocated_volume_of (alloc : DF α) : α :=
  if alloc.rows.isEmpty then 0 else seriesSum alloc "allocated_volume"

/-- Line 108: sum of `max_size` over the (working) layout table; null when
the layout table has no `max_size` column. -/
def total_capacity_of (layoutWork : DF α) : Option α :=
  if layoutWork.cols.contains "max_size" then some (seriesSum layoutWork "max_size")
  else none

/-- Line 109: `total_allocated_volume / total_capacity` when the capacity is
defined, non-zero and positive (`total_capacity and total_capacity > 0`). -/
def capacity_ratio_of (tc : Option α) (tav : α) : Option α :=
  match tc with
  | some t => if t ≠ 0 ∧ 0 < t then some (tav / t) else none
  | none => none

/-- Lines 114–116 tail step: keep, in file order, the last row of each
non-null `recommended_location` key (`groupby(...).tail(1)`; `groupby`
drops null keys, so rows with a null key are dropped entirely). -/
def lastPerKey : List (Row α) → List (Row α)
  | [] => []
  | r :: rs =>
    let k := getCell r "recommended_location"
    if k = Cell.null then lastPerKey rs
    else if rs.any (fun r2 => getCell r2 "recommended_location" = k) then lastPerKey rs
    else r :: lastPerKey rs

/-- Lines 112–116: restrict the (column-ensured) placements to rows with a
present `remaining_size`, then keep the last such row per location key. -/
def latest_last_of (pWork : DF α) : List (Row α) :=
  lastPerKey (pWork.rows.filter (fun r => notna (getCell r "remaining_size")))

/-- Lines 112–119: sum of `remaining_size` over the latest rows, divided by
the total capacity; null when the column is absent, the capacity is not
positive, or no row survives. -/
def free_effective_capacity_ratio_of (pWork : DF α) (tc : Option α) : Option α :=
  if pWork.cols.contains "remaining_size" then
    let ll := latest_last_of pWork
    match tc with
    | some t =>
      if t ≠ 0 ∧ 0 < t ∧ ¬ ll.isEmpty then
        some ((ll.filterMap (fun r => toNum (getCell r "remaining_size"))).sum / t)
      else none
    | none => none
  else none

/-- Line 121: share of placement rows with a defined `allocated_volume`;
null when the table is empty. -/
def placements_with_capacity_cols_ratio_of (pWork : DF α) : Option α :=
  if pWork.rows.isEmpty then none
  else some
    (((pWork.rows.countP (fun r => notna (getCell r "allocated_volume")) : ℕ) : α)
      / (pWork.rows.length : α))

/-- Line 126: left-join the placed subset to the selected inventory columns
by `item_id` (single shared key column, so only `demand_frequency` is
pulled in).  Raises when the placed table has no `item_id` column. -/
def merge_inventory (placed isel : DF α) : Except String (DF α) :=
  if placed.cols.contains "item_id" then
    Except.ok ⟨placed.cols ++ ["demand_frequency"],
      placed.rows.flatMap (fun r =>
        let ms := isel.rows.filter
          (fun ir => keyMatch (getCell ir "item_id") (getCell r "item_id"))
        if ms.isEmpty then [r ++ [("demand_frequency", Cell.null)]]
        else ms.map (fun ir => r ++ [("demand_frequency", getCell ir "demand_frequency")]))⟩
  else Except.error "KeyError: item_id"

/-- Lines 124–132: demand-weighted mean distance, when an inventory table
with a `demand_frequency` column is present; null when no joined row has a
defined demand frequency or the total demand is not positive.  Products
with a null distance are skipped by the sum, as pandas does. -/
def weighted_distance_of (placed : DF α) (inventory : Option (DF α)) :
    Except String (Option α) :=
  match inventory with
  | none => Except.ok none
  | some inv =>
    if inv.cols.contains "demand_frequency" then do
      let isel ← selectCols inv ["item_id", "demand_frequency"]
      let pinv ← merge_inventory placed isel
      let kept := pinv.rows.filter (fun r => notna (getCell r "demand_frequency"))
      if kept.isEmpty then Except.ok none
      else
        let num := (kept.filterMap (fun r =>
          match toNum (getCell r "distance"), toNum (getCell r "demand_frequency") with
          | some d, some q => some (d * q)
          | _, _ => none)).sum
        let den := (kept.filterMap (fun r => toNum (getCell r "demand_frequency"))).sum
        if 0 < den then Except.ok (some (num / den)) else Except.ok none
    else Except.ok none

/-- Line 85, left factor: the layout columns pulled into the join.  Raises
(`KeyError`) when the layout table lacks `location_id`, `max_size` or
`max_weight` (`distance` always exists at this point). -/
def layout_selected (sqrt : α → α) (layout : DF α) : Except String (DF α) :=
  selectCols (layout_with_distance sqrt layout)
    ["location_id", "distance", "max_size", "max_weight"]

/-- Line 85 in full: the joined table of the column-ensured placements and
the selected layout columns. -/
def merged_of (sqrt : α → α) (placements layout : DF α) : Except String (DF α) := do
  let lsel ← layout_selected sqrt layout
  merge_layout (ensure_columns placements) lsel

/-- The KPI snapshot returned by `compute_kpis` (lines 134–147). -/
structure Kpis (α : Type) where
  timestamp : String
  rows : ℕ
  placed_rows : ℕ
  avg_distance : Option α
  weighted_distance : Option α
  unplaced_rate : Option α
  avg_cube_utilization : Option α
  fragmentation_rate : Option α
  total_allocated_volume : α
  capacity_ratio : Option α
  free_effective_capacity_ratio : Option α
  placements_with_capacity_cols_ratio : Option α
deriving DecidableEq

/-- The engine `compute_kpis` (lines 71–147).  `now` stands for the ambient UTC
timestamp.  Besides the snapshot, the final states of the two input tables
are returned: the engine creates missing optional placement columns in
place, and assigns the null `distance` column to the caller's layout table
when the coordinate columns are absent (with coordinates present it works
on a copy, line 75). -/
def compute_kpis (sqrt : α → α) (now : String) (placements layout : DF α)
    (inventory : Option (DF α)) : Except String (Kpis α × DF α × DF α) := do
  let layoutWork := layout_with_distance sqrt layout
  let pWork := ensure_columns placements
  let merged ← merged_of sqrt placements layout
  let placed := placed_of merged
  let alloc := alloc_rows_of placed
  let tc := total_capacity_of layoutWork
  let tav := total_allocated_volume_of alloc
  let wd ← weighted_distance_of placed inventory
  Except.ok
    ({ timestamp := now
       rows := pWork.rows.length
       placed_rows := placed.rows.length
       avg_distance := avg_distance_of placed
       weighted_distance := wd
       unplaced_rate := unplaced_rate_of merged
       avg_cube_utilization := avg_cube_utilization_of alloc
       fragmentation_rate := fragmentation_rate_of alloc
       total_allocated_volume := tav
       capacity_ratio := capacity_ratio_of tc tav
       free_effective_capacity_ratio := free_effective_capacity_ratio_of pWork tc
       placements_with_capacity_cols_ratio := placements_with_capacity_cols_ratio_of pWork },
     pWork,
     if layout.cols.contains "x_coord" && layout.cols.contains "y_coord" then layout
     else layoutWork)

/-! ## The history appender (`append_metrics`, lines 150–157)

The history file `metrics_history.csv` is modelled as an optional `DF α`
(`none` = file absent).  The CSV round trip (`to_csv` then `read_csv`) is
modelled as the identity on the stored table. -/

/-- The snapshot's key order (the dict literal of lines 134–147), which is
the column order of `pd.DataFrame([row])`. -/
def kpi_keys : List String :=
  ["timestamp", "rows", "placed_rows", "avg_distance", "weighted_distance",
   "unplaced_rate", "avg_cube_utilization", "fragmentation_rate",
   "total_allocated_volume", "capacity_ratio", "free_effective_capacity_ratio",
   "placements_with_capacity_cols_ratio"]

/-- An optional metric as a cell (`NaN` when undefined). -/
def optCell (o : Option α) : Cell α := o.elim Cell.null Cell.num

/-- One KPI snapshot as a history row, in `kpi_keys` order. -/
def kpis_row (k : Kpis α) : Row α :=
  [("timestamp", Cell.str k.timestamp),
   ("rows", Cell.num (k.rows : α)),
   ("placed_rows", Cell.num (k.placed_rows : α)),
   ("avg_distance", optCell k.avg_distance),
   ("weighted_distance", optCell k.weighted_distance),
   ("unplaced_rate", optCell k.unplaced_rate),
   ("avg_cube_utilization", optCell k.avg_cube_utilization),
   ("fragmentation_rate", optCell k.fragmentation_rate),
   ("total_allocated_volume", Cell.num k.total_allocated_volume),
   ("capacity_ratio", optCell k.capacity_ratio),
   ("free_effective_capacity_ratio", optCell k.free_effective_capacity_ratio),
   ("placements_with_capacity_cols_ratio", optCell k.placements_with_capacity_cols_ratio)]

/-- Concatenation `pd.concat([t1, t2], ignore_index=True)`: rows appended; the column
list is `t1`'s columns followed by `t2`'s new columns (entries absent from
a row read as null via `getCell`). -/
def concat_tables (t1 t2 : DF α) : DF α :=
  ⟨t1.cols ++ t2.cols.filter (fun c => ¬ t1.cols.contains c), t1.rows ++ t2.rows⟩

/-- The appender `append_metrics` (lines 150–157): read-concat-rewrite when the history
table exists, otherwise create it with exactly the one snapshot row. -/
def append_metrics (hist : Option (DF α)) (k : Kpis α) : DF α :=
  let dfRow : DF α := ⟨kpi_keys, [kpis_row k]⟩
  match hist with
  | some existing => concat_tables existing dfRow
  | none => dfRow

/-- Sequential `append_metrics` invocations, `N` of them, starting from `init`. -/
def run_appender (ks : List (Kpis α)) (init : Option (DF α)) : Option (DF α) :=
  ks.foldl (fun h k => some (append_metrics h k)) init

/-! ## The loader (`load_data` / `_pick_layout`, lines 45–68)

The file system is modelled as a predicate `fsx : String → Bool` saying
which paths exist.  Reading a CSV that exists is modelled as succeeding
(the loader does no validation); `invOk` models whether `pd.read_csv` of
the optional inventory file succeeds (a failure is swallowed, line 66). -/

def PLACEMENTS_FILE : String := "placement_recommendations.csv"

def LAYOUT_CANDIDATE_FILENAMES : List String :=
  ["locations_data_extended.csv", "warehouse_layout.csv", "locations_data.csv"]

def INVENTORY_FILE : String := "inventory_data.csv"

/-- The helper `_pick_layout` (lines 45–53).  `if layout_override:` is Python
truthiness, so a `None` or empty-string override falls through to the
candidate probe. -/
def pick_layout (fsx : String → Bool) (layout_override : Option String) :
    Except String String :=
  if (layout_override.getD "") ≠ "" then
    let p := layout_override.getD ""
    if fsx p then Except.ok p else Except.error ("Layout file not found: " ++ p)
  else
    match LAYOUT_CANDIDATE_FILENAMES.find? fsx with
    | some f => Except.ok f
    | none => Except.error "No layout file found."

/-- Lines 62–67: the inventory source, present only when the file exists
and its parse succeeds (a parse failure is swallowed). -/
def inventory_choice (fsx : String → Bool) (invOk : Bool) : Option String :=
  if fsx INVENTORY_FILE && invOk then some INVENTORY_FILE else none

/-- The loader `load_data` (lines 56–68): the chosen placements and layout paths plus
the optional inventory path (none when absent or unparsable). -/
def load_data (fsx : String → Bool) (invOk : Bool) (layout_override : Option String) :
    Except String (String × String × Option String) :=
  if ¬ fsx PLACEMENTS_FILE then Except.error "placement_recommendations.csv not found"
  else do
    let layout_path ← pick_layout fsx layout_override
    Except.ok (PLACEMENTS_FILE, layout_path, inventory_choice fsx invOk)

/-! ## The placement endpoint (`src/placement_service.py`)

Python values relevant to the endpoint are modelled by `PyVal` (floats as
rationals).  `parse_new_item` returns `Except String NewItem`, the error
being the `error` entry of the returned dict. -/

/-- A Python value as received in the request JSON. -/
inductive PyVal where
  | none  : PyVal
  | bool  : Bool → PyVal
  | int   : ℤ → PyVal
  | float : ℚ → PyVal
  | str   : String → PyVal
deriving DecidableEq

/-- Python truthiness: `None`, `False`, `0`, `0.0` and `""` are falsy. -/
def truthy : PyVal → Bool
  | PyVal.none => false
  | PyVal.bool b => b
  | PyVal.int n => n ≠ 0
  | PyVal.float x => x ≠ 0
  | PyVal.str s => s ≠ ""

/-- Python `x or y`: `x` when truthy, else `y`. -/
def pyOr (x y : PyVal) : PyVal := if truthy x then x else y

/-- Python `int()` truncates a float toward zero. -/
def pyTrunc (x : ℚ) : ℤ := if 0 ≤ x then ⌊x⌋ else ⌈x⌉

/-- The value of a run of decimal digits. -/
def digitsToNat (ds : List Char) : ℕ :=
  ds.foldl (fun n c => 10 * n + (c.toNat - Char.toNat '0')) 0

/-- Parse a plain signed decimal literal (`float()` on a string; exponent
forms are not reproduced — no claim exercises them). -/
def parseDecimal (s : String) : Option ℚ :=
  let cs := s.toList
  let sign : ℚ := if cs.head? = some '-' then -1 else 1
  let cs := if cs.head? = some '-' || cs.head? = some '+' then cs.drop 1 else cs
  let intPart := cs.takeWhile Char.isDigit
  let rest := cs.drop intPart.length
  match rest with
  | [] => if intPart.isEmpty then none else some (sign * (digitsToNat intPart : ℚ))
  | '.' :: frac =>
    if frac.all Char.isDigit && !(intPart.isEmpty && frac.isEmpty) then
      some (sign * ((digitsToNat intPart : ℚ) + (digitsToNat frac : ℚ) / (10 ^ frac.length : ℚ)))
    else none
  | _ => none

/-- Python `int(v)`. -/
def pyToInt : PyVal → Except String ℤ
  | PyVal.none => Except.error "int() argument must not be None"
  | PyVal.bool b => Except.ok (if b then 1 else 0)
  | PyVal.int n => Except.ok n
  | PyVal.float x => Except.ok (pyTrunc x)
  | PyVal.str s =>
    match s.trim.toInt? with
    | some n => Except.ok n
    | Option.none => Except.error "invalid literal for int()"

/-- Python `float(v)`. -/
def pyToFloat : PyVal → Except String ℚ
  | PyVal.none => Except.error "float() argument must not be None"
  | PyVal.bool b => Except.ok (if b then 1 else 0)
  | PyVal.int n => Except.ok (n : ℚ)
  | PyVal.float x => Except.ok x
  | PyVal.str s =>
    match parseDecimal s.trim with
    | some q => Except.ok q
    | Option.none => Except.error "could not convert string to float"

/-- Python `str(v)` (decimal rendering of floats is not reproduced exactly
— no claim converts a float to a string). -/
def pyToStr : PyVal → String
  | PyVal.none => "None"
  | PyVal.bool b => if b then "True" else "False"
  | PyVal.int n => toString n
  | PyVal.float x => toString x
  | PyVal.str s => s

/-- A request JSON object (Python dicts have unique keys). -/
abbrev PyDict := List (String × PyVal)

/-- Python `data.get(k)` (returns `None` when the key is absent). -/
def dictGet (d : PyDict) (k : String) : PyVal :=
  ((d.find? (fun e => e.1 = k)).map Prod.snd).getD PyVal.none

/-- Remove a key from a dict. -/
def dictErase (d : PyDict) (k : String) : PyDict :=
  d.filter (fun e => e.1 ≠ k)

/-- The validated item record built by `parse_new_item`. -/
structure NewItem where
  item_id : String
  demand_frequency : ℤ
  current_stock : ℤ
  weight_per_unit : ℚ
  dimensions : String
deriving DecidableEq

/-- The validator `parse_new_item` (src/placement_service.py lines 28–46): a missing
`item_id` is the `KeyError` branch; each optional field is read with
`data.get(field) or default` and then converted. -/
def parse_new_item (d : PyDict) : Except String NewItem :=
  match (d.find? (fun e => e.1 = "item_id")).map Prod.snd with
  | Option.none => Except.error "Missing required key: 'item_id'"
  | some v => do
    let item_id := pyToStr v
    let demand_frequency ← pyToInt (pyOr (dictGet d "demand_frequency") (PyVal.int 0))
    let current_stock ← pyToInt (pyOr (dictGet d "current_stock") (PyVal.int 0))
    let weight_per_unit ← pyToFloat (pyOr (dictGet d "weight_per_unit") (PyVal.float 1))
    let dimensions := pyToStr (pyOr (dictGet d "dimensions") (PyVal.str "1x1x1"))
    Except.ok ⟨item_id, demand_frequency, current_stock, weight_per_unit, dimensions⟩

/-! ## Location extraction in the endpoint (`place_item`, lines 17–25)

`message.split("placed at location")[-1].strip()` over the message returned
by the external placement algorithm.  Strings are handled as `List Char`;
`pySplitLast` computes the last piece of Python's left-to-right
non-overlapping `str.split`. -/

abbrev Chars := List Char

/-- The fixed marker phrase of line 20. -/
def marker : Chars := "placed at location".toList

/-- Whether `sep` occurs in `s` at position `p`. -/
def subAt (sep s : Chars) (p : ℕ) : Bool := sep.isPrefixOf (s.drop p)

/-- The leftmost occurrence position of `sep` in `s`, if any. -/
def findSub (sep s : Chars) : Option ℕ :=
  (List.range (s.length + 1)).find? (subAt sep s)

/-- Python's `sep in s` substring test. -/
def containsSub (sep s : Chars) : Bool := (findSub sep s).isSome

/-- The last piece of Python's `s.split(sep)`: repeatedly cut at the
leftmost occurrence and keep the remainder. -/
def pySplitLast (sep s : Chars) : Chars :=
  if hsep : sep.isEmpty then s
  else
    match hf : findSub sep s with
    | Option.none => s
    | some i => pySplitLast sep (s.drop (i + sep.length))
termination_by s.length
decreasing_by
  have hf2 : List.find? (subAt sep s) (List.range (s.length + 1)) = some i := hf
  have hpre0 : subAt sep s i = true := List.find?_some hf2
  have hpre : sep.isPrefixOf (s.drop i) = true := hpre0
  have hlen : sep.length ≤ (s.drop i).length :=
    ( List.isPrefixOf_iff_prefix.mp hpre).length_le
  simp only [List.length_drop] at hlen ⊢
  simp only [List.isEmpty_iff] at hsep
  have : 1 ≤ sep.length := List.length_pos.mpr hsep
  omega

/-- Python `str.strip()`: remove leading and trailing whitespace. -/
def pyStrip (s : Chars) : Chars :=
  ((s.dropWhile Char.isWhitespace).reverse.dropWhile Char.isWhitespace).reverse

/-- The HTTP response of the `place-item` endpoint in the success path. -/
structure PlaceResponse where
  message : String
  recommended_location : Option String
deriving DecidableEq

/-- Lines 17–25: the location is extracted from the algorithm's message
when it contains the marker phrase, else left null; the message itself is
always returned. -/
def place_item_response (message : String) : PlaceResponse :=
  { message := message
    recommended_location :=
      if containsSub marker message.toList then
        some ((pyStrip (pySplitLast marker message.toList)).asString)
      else Option.none }

/-! Specification-side definitions for the location extraction: the
positions at which the marker occurs, its last (rightmost) occurrence, and
the substring after it. -/

/-- All positions at which `sep` occurs in `s`, in increasing order. -/
def occursList (sep s : Chars) : List ℕ :=
  (List.range (s.length + 1)).filter (subAt sep s)

/-- The rightmost occurrence position of `sep` in `s`, if any. -/
def lastOccIdx (sep s : Chars) : Option ℕ := (occursList sep s).getLast?

/-- The substring of `s` after the last occurrence of `sep`, if any. -/
def afterLastOccurrence (sep s : Chars) : Option Chars :=
  (lastOccIdx sep s).map (fun p => s.drop (p + sep.length))

/-- A pattern is overlap-free when no nonempty proper suffix of it is also
a prefix of it; two occurrences of such a pattern can never overlap. -/
def overlapFree (sep : Chars) : Prop :=
  ∀ d < sep.length, 0 < d → sep.take (sep.length - d) ≠ sep.drop d

/-! # Theorems -/

lemma except_bind_ok {β γ : Type} (x : β) (f : β → Except String γ) :
    (Except.ok x >>= f : Except String γ) = f x := rfl

lemma except_bind_err {β γ : Type} (e : String) (f : β → Except String γ) :
    (Except.error e >>= f : Except String γ) = Except.error e := rfl

/-! ## C7: the append invariant of the history table -/

lemma kpi_keys_filter_self :
    kpi_keys.filter (fun c => ¬ kpi_keys.contains c) = ([] : List String) := by decide

lemma concat_same_cols (t : DF α) (k : Kpis α) (h : t.cols = kpi_keys) :
    concat_tables t ⟨kpi_keys, [kpis_row k]⟩ = ⟨kpi_keys, t.rows ++ [kpis_row k]⟩ := by
  unfold concat_tables
  rw [h, kpi_keys_filter_self, List.append_nil]

lemma run_appender_from (ks : List (Kpis α)) (rs : List (Row α)) :
    run_appender ks (some ⟨kpi_keys, rs⟩) = some ⟨kpi_keys, rs ++ ks.map kpis_row⟩ := by
  induction ks generalizing rs with
  | nil => simp [run_appender]
  | cons k ks ih =>
    have hstep : append_metrics (some ⟨kpi_keys, rs⟩) k = ⟨kpi_keys, rs ++ [kpis_row k]⟩ :=
      concat_same_cols _ _ rfl
    simp only [run_appender, List.foldl_cons] at ih ⊢
    rw [hstep, ih, List.map_cons, List.append_assoc, List.singleton_append]

/-- C7: starting from no history table, after N sequential `append_metrics`
calls with snapshots `s₁ … s_N`, the history table holds exactly the rows
`kpis_row s₁, …, kpis_row s_N` in order; the first call creates the table
with exactly that one row and with column order equal to the snapshot's key
order (`kpi_keys`); every later call on a table with that schema appends
its row and preserves all prior rows unchanged. -/
theorem claim_C7_append_invariant {α : Type} [LinearOrderedField α] [DecidableEq α]
    (ks : List (Kpis α)) :
    run_appender ks (none : Option (DF α)) =
      (if ks.isEmpty then none else some ⟨kpi_keys, ks.map kpis_row⟩)
    ∧ (∀ k : Kpis α, append_metrics none k = ⟨kpi_keys, [kpis_row k]⟩)
    ∧ (∀ t : DF α, t.cols = kpi_keys → ∀ k : Kpis α,
        append_metrics (some t) k = ⟨kpi_keys, t.rows ++ [kpis_row k]⟩)
    ∧ (run_appender ks (none : Option (DF α))).elim True
        (fun t => t.rows.length = ks.length ∧
          ∀ i : ℕ, t.rows.get? i = (ks.map kpis_row).get? i) := by
  have hmain : run_appender ks (none : Option (DF α)) =
      (if ks.isEmpty then none else some ⟨kpi_keys, ks.map kpis_row⟩) := by
    cases ks with
    | nil => rfl
    | cons k ks =>
      simp only [run_appender, List.foldl_cons, List.isEmpty_cons, if_neg Bool.false_ne_true]
      have hstep : append_metrics (none : Option (DF α)) k = ⟨kpi_keys, [kpis_row k]⟩ := rfl
      rw [hstep]
      have h2 := run_appender_from ks [kpis_row k]
      simp only [run_appender] at h2
      rw [h2, List.map_cons, List.singleton_append]
  refine ⟨hmain, fun k => rfl, fun t ht k => concat_same_cols t k ht, ?_⟩
  rw [hmain]
  cases ks with
  | nil => simp
  | cons k ks => simp

/-- A sample snapshot used by witnesses. -/
def kpiSampleA : Kpis ℚ :=
  { timestamp := "2024-01-01T00:00:00", rows := 2, placed_rows := 1,
    avg_distance := some 5, weighted_distance := none, unplaced_rate := some (1 / 2),
    avg_cube_utilization := some (1 / 2), fragmentation_rate := some 0,
    total_allocated_volume := 5, capacity_ratio := some (1 / 2),
    free_effective_capacity_ratio := none,
    placements_with_capacity_cols_ratio := some (1 / 2) }

/-- A second sample snapshot used by witnesses. -/
def kpiSampleB : Kpis ℚ :=
  { kpiSampleA with timestamp := "2024-01-02T00:00:00", rows := 3 }

/-- Witness for C7 at two concrete snapshots. -/
theorem claim_C7_witness :
    run_appender [kpiSampleA, kpiSampleB] (none : Option (DF ℚ)) =
      some ⟨kpi_keys, [kpis_row kpiSampleA, kpis_row kpiSampleB]⟩
    ∧ append_metrics (some ⟨kpi_keys, [kpis_row kpiSampleA]⟩) kpiSampleB =
      ⟨kpi_keys, [kpis_row kpiSampleA, kpis_row kpiSampleB]⟩ := by
  have h := claim_C7_append_invariant (α := ℚ) [kpiSampleA, kpiSampleB]
  refine ⟨?_, ?_⟩
  · rw [h.1]; rfl
  · have h3 := h.2.2.1 ⟨kpi_keys, [kpis_row kpiSampleA]⟩ rfl kpiSampleB
    simpa using h3

/-! ## C8: loader error handling and layout selection -/

/-- C8: `load_data` fails with the missing-input error whenever the
placements source does not exist; with a (truthy) explicit layout path it
fails with the missing-input error when that path does not exist and
otherwise selects it; with no explicit path it selects the first existing
filename of the fixed ordered candidate list `locations_data_extended.csv`,
`warehouse_layout.csv`, `locations_data.csv`, failing with the
missing-input error only when none of them exists. -/
theorem claim_C8_loader (fsx : String → Bool) (invOk : Bool) (ov : Option String) :
    (fsx PLACEMENTS_FILE = false →
      load_data fsx invOk ov = Except.error "placement_recommendations.csv not found")
    ∧ (fsx PLACEMENTS_FILE = true → (ov.getD "") ≠ "" →
        (fsx (ov.getD "") = false →
          load_data fsx invOk ov = Except.error ("Layout file not found: " ++ ov.getD ""))
        ∧ (fsx (ov.getD "") = true →
          load_data fsx invOk ov =
            Except.ok (PLACEMENTS_FILE, ov.getD "", inventory_choice fsx invOk)))
    ∧ (fsx PLACEMENTS_FILE = true → (ov.getD "") = "" →
        (fsx "locations_data_extended.csv" = true →
          load_data fsx invOk ov =
            Except.ok (PLACEMENTS_FILE, "locations_data_extended.csv",
              inventory_choice fsx invOk))
        ∧ (fsx "locations_data_extended.csv" = false → fsx "warehouse_layout.csv" = true →
          load_data fsx invOk ov =
            Except.ok (PLACEMENTS_FILE, "warehouse_layout.csv", inventory_choice fsx invOk))
        ∧ (fsx "locations_data_extended.csv" = false → fsx "warehouse_layout.csv" = false →
            fsx "locations_data.csv" = true →
          load_data fsx invOk ov =
            Except.ok (PLACEMENTS_FILE, "locations_data.csv", inventory_choice fsx invOk))
        ∧ (fsx "locations_data_extended.csv" = false → fsx "warehouse_layout.csv" = false →
            fsx "locations_data.csv" = false →
          load_data fsx invOk ov = Except.error "No layout file found.")) := by
  have hbe : ∀ (e : String) (f : String → Except String (String × String × Option String)),
      (Except.error e >>= f) = Except.error e := fun _ _ => rfl
  have hbo : ∀ (x : String) (f : String → Except String (String × String × Option String)),
      (Except.ok x >>= f) = f x := fun _ _ => rfl
  refine ⟨?_, ?_, ?_⟩
  · intro h
    simp [load_data, h]
  · intro hp hov
    constructor
    · intro h
      simp [load_data, hp, pick_layout, if_pos hov, h, hbe]
    · intro h
      simp [load_data, hp, pick_layout, if_pos hov, h, hbo]
  · intro hp hov
    refine ⟨?_, ?_, ?_, ?_⟩
    · intro h1
      simp [load_data, hp, pick_layout, hov, LAYOUT_CANDIDATE_FILENAMES, List.find?,
        h1, hbo]
    · intro h1 h2
      simp [load_data, hp, pick_layout, hov, LAYOUT_CANDIDATE_FILENAMES, List.find?,
        h1, h2, hbo]
    · intro h1 h2 h3
      simp [load_data, hp, pick_layout, hov, LAYOUT_CANDIDATE_FILENAMES, List.find?,
        h1, h2, h3, hbo]
    · intro h1 h2 h3
      simp [load_data, hp, pick_layout, hov, LAYOUT_CANDIDATE_FILENAMES, List.find?,
        h1, h2, h3, hbe]

/-- A sample file system for the loader witness. -/
def fsSample : String → Bool :=
  fun s => ["placement_recommendations.csv", "warehouse_layout.csv"].contains s

/-- Witness for C8: the placements file and the second layout candidate
exist, so the second candidate is selected; an empty file system fails. -/
theorem claim_C8_witness :
    load_data fsSample true none =
      Except.ok (PLACEMENTS_FILE, "warehouse_layout.csv", inventory_choice fsSample true)
    ∧ load_data (fun _ => false) true none =
      Except.error "placement_recommendations.csv not found" := by
  constructor
  · exact ((claim_C8_loader fsSample true none).2.2 (by decide) rfl).2.1 (by decide) (by decide)
  · exact (claim_C8_loader (fun _ => false) true none).1 rfl

/-! ## C9: falsy optional fields in `parse_new_item` behave as absent -/

lemma find_key_erase (d : PyDict) (k c : String) (h : c ≠ k) :
    (dictErase d k).find? (fun e => e.1 = c) = d.find? (fun e => e.1 = c) := by
  induction d with
  | nil => rfl
  | cons e d ih =>
    unfold dictErase at ih ⊢
    rw [List.filter_cons]
    by_cases hek : e.1 = k
    · have hec : ¬ (e.1 = c) := fun hc => h (hc ▸ hek)
      rw [if_neg (by simp [hek]), List.find?_cons_of_neg _ (by simp [hec])]
      exact ih
    · rw [if_pos (by simp [hek])]
      by_cases hec : e.1 = c
      · rw [List.find?_cons_of_pos _ (by simp [hec]), List.find?_cons_of_pos _ (by simp [hec])]
      · rw [List.find?_cons_of_neg _ (by simp [hec]), List.find?_cons_of_neg _ (by simp [hec])]
        exact ih

lemma dictGet_erase_self (d : PyDict) (k : String) :
    dictGet (dictErase d k) k = PyVal.none := by
  unfold dictGet
  have hnone : (dictErase d k).find? (fun e => e.1 = k) = none := by
    apply List.find?_eq_none.mpr
    intro e he
    have hmem := List.of_mem_filter he
    simp only [decide_not, Bool.not_eq_true', decide_eq_false_iff_not] at hmem
    simpa using hmem
  rw [hnone]
  rfl

lemma dictGet_erase_ne (d : PyDict) (k c : String) (h : c ≠ k) :
    dictGet (dictErase d k) c = dictGet d c := by
  unfold dictGet
  rw [find_key_erase d k c h]

/-- C9: in `parse_new_item`, an optional field that is present but falsy
(`0`, `0.0`, `""`, `None`, `False`) is treated exactly as if it were
absent: the parse result is unchanged by deleting the field. -/
theorem claim_C9_falsy_defaults (d : PyDict) (k : String) (v : PyVal)
    (hk : k = "demand_frequency" ∨ k = "current_stock" ∨
          k = "weight_per_unit" ∨ k = "dimensions")
    (hv : (d.find? (fun e => e.1 = k)).map Prod.snd = some v)
    (hfalsy : truthy v = false) :
    parse_new_item d = parse_new_item (dictErase d k) := by
  have hget : dictGet d k = v := by
    unfold dictGet
    rw [hv]
    rfl
  have hself : dictGet (dictErase d k) k = PyVal.none := dictGet_erase_self d k
  have hitem : (dictErase d k).find? (fun e => e.1 = "item_id") =
      d.find? (fun e => e.1 = "item_id") := by
    apply find_key_erase
    rcases hk with h | h | h | h <;> subst h <;> decide
  have hOrV : ∀ w : PyVal, pyOr v w = w := by
    intro w
    simp [pyOr, hfalsy]
  have hOrN : ∀ w : PyVal, pyOr PyVal.none w = w := fun w => rfl
  rcases hk with h | h | h | h
  · subst h
    simp only [parse_new_item, hitem, hget, hself, hOrV, hOrN,
      dictGet_erase_ne d "demand_frequency" "current_stock" (by decide),
      dictGet_erase_ne d "demand_frequency" "weight_per_unit" (by decide),
      dictGet_erase_ne d "demand_frequency" "dimensions" (by decide)]
  · subst h
    simp only [parse_new_item, hitem, hget, hself, hOrV, hOrN,
      dictGet_erase_ne d "current_stock" "demand_frequency" (by decide),
      dictGet_erase_ne d "current_stock" "weight_per_unit" (by decide),
      dictGet_erase_ne d "current_stock" "dimensions" (by decide)]
  · subst h
    simp only [parse_new_item, hitem, hget, hself, hOrV, hOrN,
      dictGet_erase_ne d "weight_per_unit" "demand_frequency" (by decide),
      dictGet_erase_ne d "weight_per_unit" "current_stock" (by decide),
      dictGet_erase_ne d "weight_per_unit" "dimensions" (by decide)]
  · subst h
    simp only [parse_new_item, hitem, hget, hself, hOrV, hOrN,
      dictGet_erase_ne d "dimensions" "demand_frequency" (by decide),
      dictGet_erase_ne d "dimensions" "current_stock" (by decide),
      dictGet_erase_ne d "dimensions" "weight_per_unit" (by decide)]

/-- A sample request dict for the C9 witness: `weight_per_unit` present but
falsy (`0`), `dimensions` present but falsy (`""`). -/
def dSample : PyDict :=
  [("item_id", PyVal.str "X1"), ("weight_per_unit", PyVal.int 0),
   ("dimensions", PyVal.str "")]

/-- Witness for C9: the falsy `weight_per_unit` of `dSample` behaves as
absent, and the parse yields the defaults `1.0` and `"1x1x1"`. -/
theorem claim_C9_witness :
    truthy (PyVal.int 0) = false
    ∧ parse_new_item dSample = parse_new_item (dictErase dSample "weight_per_unit")
    ∧ parse_new_item dSample = Except.ok ⟨"X1", 0, 0, 1, "1x1x1"⟩ := by
  refine ⟨by decide, ?_, rfl⟩
  exact claim_C9_falsy_defaults dSample "weight_per_unit" (PyVal.int 0)
    (Or.inr (Or.inr (Or.inl rfl))) (by decide) (by decide)

/-! ## Concrete tables used by counterexamples and witnesses -/

/-- The placements table of the spec's scenario (claim C2). -/
def scnPlacements : DF α :=
  ⟨["item_id", "recommended_location", "allocated_volume"],
   [[("item_id", Cell.str "A"), ("recommended_location", Cell.str "L1"),
     ("allocated_volume", Cell.num 5)],
    [("item_id", Cell.str "B"), ("recommended_location", Cell.str "UNPLACED")]]⟩

/-- The layout table of the scenario exactly as the claim states it:
columns `location_id`, `max_size`, `x_coord`, `y_coord` and no
`max_weight` column. -/
def scnLayout : DF α :=
  ⟨["location_id", "max_size", "x_coord", "y_coord"],
   [[("location_id", Cell.str "L1"), ("max_size", Cell.num 10),
     ("x_coord", Cell.num 3), ("y_coord", Cell.num 4)]]⟩

/-- The scenario layout extended with a `max_weight` column. -/
def scnLayoutW : DF α :=
  ⟨["location_id", "max_size", "max_weight", "x_coord", "y_coord"],
   [[("location_id", Cell.str "L1"), ("max_size", Cell.num 10),
     ("max_weight", Cell.num 100), ("x_coord", Cell.num 3), ("y_coord", Cell.num 4)]]⟩

/-- A placements table with one row: null `recommended_location` and a
defined `remaining_size` of 7 (for C1 and C3). -/
def nullLocPlacements : DF α :=
  ⟨["item_id", "recommended_location", "remaining_size"],
   [[("item_id", Cell.str "A"), ("recommended_location", Cell.null),
     ("remaining_size", Cell.num 7)]]⟩

/-- A minimal well-formed layout table: one location, capacity 10. -/
def smallLayout : DF α :=
  ⟨["location_id", "max_size", "max_weight"],
   [[("location_id", Cell.str "L1"), ("max_size", Cell.num 10),
     ("max_weight", Cell.num 100)]]⟩

/-- A layout table without a `max_size` column (C4's failing input). -/
def noCapacityLayout : DF α :=
  ⟨["location_id", "max_weight"],
   [[("location_id", Cell.str "L1"), ("max_weight", Cell.num 100)]]⟩

/-! ## C4 (code bug): absent max-size column crashes before the guard -/

/-- C4: the claim (and spec §4.2/§7) say `capacity_ratio` is the undefined
marker whenever the total layout capacity is zero, negative or absent.  On
a layout without a `max_size` column, `compute_kpis` instead raises a
`KeyError` at the layout column selection of line 85, so the dead guard of
line 108 (embedded as `total_capacity_of`, which does return the undefined
marker) is never reached: the code contradicts the intent its own guard
documents.  At defined capacities the guarded quotient behaves exactly as
claimed: zero and negative capacities give the undefined marker, positive
capacity gives `total_allocated_volume / total_capacity`. -/
theorem claim_C4_capacity_ratio :
    compute_kpis (fun x : ℚ => x) "2024-01-01T00:00:00" scnPlacements noCapacityLayout
      none = Except.error "KeyError: columns not in index"
    ∧ total_capacity_of (layout_with_distance (fun x : ℚ => x) noCapacityLayout) = none
    ∧ capacity_ratio_of (none : Option ℚ) 5 = none
    ∧ capacity_ratio_of (some (0 : ℚ)) 5 = none
    ∧ capacity_ratio_of (some (-3 : ℚ)) 5 = none
    ∧ capacity_ratio_of (some (10 : ℚ)) 5 = some (1 / 2) := by
  refine ⟨rfl, rfl, rfl, by norm_num [capacity_ratio_of], by norm_num [capacity_ratio_of],
    by norm_num [capacity_ratio_of]⟩

/-! ## C2: the scenario as stated crashes; with a max_weight column the
claimed KPI values hold -/

/-- Counterexample for C2: on the scenario input exactly as stated, the
layout lacks the `max_weight` column that the join of line 85 selects, so
`compute_kpis` raises a `KeyError` instead of returning the claimed KPI
values.  (The failure happens at the column selection, before any distance
value is used, so it is independent of the `sqrt` interpretation.) -/
theorem claim_C2_counterexample :
    compute_kpis (fun x : ℚ => x) "2024-01-01T00:00:00" scnPlacements scnLayout none =
      Except.error "KeyError: columns not in index" := rfl

/-- C2 (amended): with the scenario layout additionally carrying the
`max_weight` column that the join selects, the engine run over the reals
with the genuine square root returns exactly the claimed KPI values:
avg_distance = 5, unplaced_rate = 1/2, avg_cube_utilization = 1/2,
fragmentation_rate = 0, total_allocated_volume = 5, capacity_ratio = 1/2. -/
theorem claim_C2_scenario :
    (compute_kpis Real.sqrt "2024-01-01T00:00:00" scnPlacements scnLayoutW none).map
      (fun t => (t.1.avg_distance, t.1.unplaced_rate, t.1.avg_cube_utilization,
        t.1.fragmentation_rate, t.1.total_allocated_volume, t.1.capacity_ratio)) =
    Except.ok (some 5, some (1 / 2), some (1 / 2), some 0, (5 : ℝ), some (1 / 2)) := by
  have hs : Real.sqrt 25 = 5 := by
    rw [show (25 : ℝ) = 5 ^ 2 by norm_num]
    exact Real.sqrt_sq (by norm_num)
  norm_num +decide [compute_kpis, merged_of, layout_selected, layout_with_distance,
    setColMap, setColConst, setEntry, selectCols, ensure_columns, ensure_step,
    optional_placement_cols, merge_layout, keyMatch, getCell, placed_of, alloc_rows_of,
    notna, toNum, avg_distance_of, unplaced_rate_of, seriesMean, colVals, shelf_util_of,
    groupKeys, utilization, avg_cube_utilization_of, fragmentation_rate_of,
    total_allocated_volume_of, total_capacity_of, seriesSum, capacity_ratio_of,
    free_effective_capacity_ratio_of, latest_last_of, lastPerKey,
    placements_with_capacity_cols_ratio_of, weighted_distance_of, merge_inventory,
    distCell, except_bind_ok, except_bind_err, scnPlacements, scnLayoutW, hs,
    Except.map, List.filter, List.find?, List.flatMap, List.filterMap_cons]

/-! ## C1 and C3 counterexample machinery -/

/-- Modelled from the claim's words (C1): the rows of the full placements
table with a defined remaining-size value, in file order. -/
def claim_qualifying_rows (P : DF α) : List (Row α) :=
  if P.cols.contains "remaining_size" then
    P.rows.filter (fun r => notna (getCell r "remaining_size"))
  else []

/-- Modelled from the claim's words (C1): keep, in file order, only the
last row per recommended-location — including rows whose location is null
or the sentinel `UNPLACED`. -/
def claim_last_per_location : List (Row α) → List (Row α)
  | [] => []
  | r :: rs =>
    if rs.any (fun r2 =>
        getCell r2 "recommended_location" = getCell r "recommended_location") then
      claim_last_per_location rs
    else r :: claim_last_per_location rs

/-- Modelled from the claim's words (C1): sum of remaining-size over the
claimed row reduction, divided by total capacity; undefined when there is
no remaining-size column (no rows qualify then), the capacity is undefined
or non-positive, or no rows qualify. -/
def claim_free_ratio (P L : DF α) : Option α :=
  let tc : Option α :=
    if L.cols.contains "max_size" then some (seriesSum L "max_size") else none
  let ll := claim_last_per_location (claim_qualifying_rows P)
  match tc with
  | some t =>
    if 0 < t ∧ ¬ ll.isEmpty then
      some ((ll.filterMap (fun r => toNum (getCell r "remaining_size"))).sum / t)
    else none
  | none => none

/-- Counterexample for C1: a single placement row with a defined
`remaining_size` of 7 but a null `recommended_location`.  The claim's
reduction keeps that row (last row of the null-location group) and yields
7/10; the code's `groupby(...).tail(1)` drops null keys, so the row set is
empty and the code returns the undefined marker. -/
theorem claim_C1_counterexample :
    (compute_kpis (fun x : ℚ => x) "2024-01-01T00:00:00" nullLocPlacements smallLayout
        none).map (fun t => t.1.free_effective_capacity_ratio) = Except.ok none
    ∧ claim_free_ratio (nullLocPlacements (α := ℚ)) smallLayout = some (7 / 10) := by
  constructor
  · simp +decide [compute_kpis, merged_of, layout_selected, layout_with_distance,
      setColMap, setColConst, setEntry, selectCols, ensure_columns,
      optional_placement_cols, merge_layout, keyMatch, getCell, placed_of,
      alloc_rows_of, notna, toNum, free_effective_capacity_ratio_of, latest_last_of,
      lastPerKey, total_capacity_of, seriesSum, colVals, weighted_distance_of,
      Except.map, List.filter, List.find?, List.flatMap, distCell, nullLocPlacements,
      smallLayout, except_bind_ok, except_bind_err]
  · norm_num +decide [claim_free_ratio, claim_qualifying_rows, claim_last_per_location,
      seriesSum, colVals, getCell, notna, toNum, nullLocPlacements, smallLayout,
      List.filter, List.find?, List.filterMap_cons]

/-- Counterexample for C3: `compute_kpis` returns final table states that
differ from its inputs — it adds the missing optional columns to the
placements table and the null `distance` column to the layout table when
the coordinate columns are absent. -/
theorem claim_C3_counterexample :
    (compute_kpis (fun x : ℚ => x) "2024-01-01T00:00:00" nullLocPlacements smallLayout
        none).map
      (fun t => (decide (t.2.1 = nullLocPlacements), decide (t.2.2 = smallLayout))) =
      Except.ok (false, false) := rfl

/-! ## Decomposition of a successful engine run -/

lemma compute_kpis_ok_decomp {sqrt : α → α} {now : String} {P L : DF α}
    {inv : Option (DF α)} {k : Kpis α} {p' l' : DF α}
    (hok : compute_kpis sqrt now P L inv = Except.ok (k, p', l')) :
    ∃ merged wd, merged_of sqrt P L = Except.ok merged
      ∧ weighted_distance_of (placed_of merged) inv = Except.ok wd
      ∧ k = { timestamp := now
              rows := (ensure_columns P).rows.length
              placed_rows := (placed_of merged).rows.length
              avg_distance := avg_distance_of (placed_of merged)
              weighted_distance := wd
              unplaced_rate := unplaced_rate_of merged
              avg_cube_utilization := avg_cube_utilization_of (alloc_rows_of (placed_of merged))
              fragmentation_rate := fragmentation_rate_of (alloc_rows_of (placed_of merged))
              total_allocated_volume :=
                total_allocated_volume_of (alloc_rows_of (placed_of merged))
              capacity_ratio :=
                capacity_ratio_of (total_capacity_of (layout_with_distance sqrt L))
                  (total_allocated_volume_of (alloc_rows_of (placed_of merged)))
              free_effective_capacity_ratio :=
                free_effective_capacity_ratio_of (ensure_columns P)
                  (total_capacity_of (layout_with_distance sqrt L))
              placements_with_capacity_cols_ratio :=
                placements_with_capacity_cols_ratio_of (ensure_columns P) }
      ∧ p' = ensure_columns P
      ∧ l' = (if L.cols.contains "x_coord" && L.cols.contains "y_coord" then L
              else layout_with_distance sqrt L) := by
  unfold compute_kpis at hok
  cases hm : merged_of sqrt P L with
  | error e =>
    rw [hm, except_bind_err] at hok
    exact absurd hok (by simp)
  | ok merged =>
    rw [hm, except_bind_ok] at hok
    dsimp only at hok
    cases hw : weighted_distance_of (placed_of merged) inv with
    | error e =>
      rw [hw, except_bind_err] at hok
      exact absurd hok (by simp)
    | ok wd =>
      rw [hw, except_bind_ok] at hok
      have htriple := Except.ok.inj hok
      refine ⟨merged, wd, rfl, hw, ?_, ?_, ?_⟩
      · exact (congrArg Prod.fst htriple).symm
      · exact (congrArg (fun t => t.2.1) htriple).symm
      · exact (congrArg (fun t => t.2.2) htriple).symm

/-! ## C6: unplaced_rate -/

/-- C6: for every successful engine run, `unplaced_rate` is undefined iff
the joined table is empty; when defined it equals the fraction of all
joined rows whose recommended-location equals the string `UNPLACED`, it
lies in [0, 1], and rows with a null recommended-location never satisfy
the numerator predicate (they count in the denominator only). -/
theorem claim_C6_unplaced_rate {α : Type} [LinearOrderedField α] [DecidableEq α]
    (sqrt : α → α) (now : String) (P L : DF α) (inv : Option (DF α))
    (k : Kpis α) (p' l' : DF α)
    (hok : compute_kpis sqrt now P L inv = Except.ok (k, p', l')) :
    ∃ merged, merged_of sqrt P L = Except.ok merged
      ∧ (k.unplaced_rate = none ↔ merged.rows = [])
      ∧ (merged.rows ≠ [] → k.unplaced_rate = some
          (((merged.rows.countP
              (fun r => getCell r "recommended_location" = Cell.str "UNPLACED") : ℕ) : α)
            / (merged.rows.length : α)))
      ∧ (∀ v, k.unplaced_rate = some v → 0 ≤ v ∧ v ≤ 1)
      ∧ (∀ r ∈ merged.rows, getCell r "recommended_location" = Cell.null →
          ¬ getCell r "recommended_location" = Cell.str "UNPLACED") := by
  obtain ⟨merged, wd, hm, hw, hk, hp, hl⟩ := compute_kpis_ok_decomp hok
  have hur : k.unplaced_rate = unplaced_rate_of merged := by rw [hk]
  refine ⟨merged, hm, ?_, ?_, ?_, ?_⟩
  · rw [hur]
    unfold unplaced_rate_of
    by_cases hrows : merged.rows.isEmpty
    · simp only [if_pos hrows]
      simpa using List.isEmpty_iff.mp hrows
    · simp only [if_neg hrows]
      have : merged.rows ≠ [] := fun h => hrows (List.isEmpty_iff.mpr h)
      simp [this]
  · intro h
    rw [hur]
    unfold unplaced_rate_of
    rw [if_neg (fun hc => h (List.isEmpty_iff.mp hc))]
  · intro v hv
    rw [hur] at hv
    unfold unplaced_rate_of at hv
    by_cases hrows : merged.rows.isEmpty
    · rw [if_pos hrows] at hv
      exact absurd hv (by simp)
    · rw [if_neg hrows] at hv
      have hveq := Option.some.inj hv
      have hlen : 0 < merged.rows.length := by
        cases hmr : merged.rows with
        | nil => exact absurd (List.isEmpty_iff.mpr hmr) hrows
        | cons a l => simp [hmr]
      have hlenα : (0 : α) < (merged.rows.length : α) := by exact_mod_cast hlen
      constructor
      · rw [← hveq]
        exact div_nonneg (Nat.cast_nonneg _) (le_of_lt hlenα)
      · rw [← hveq, div_le_one hlenα]
        exact_mod_cast List.countP_le_length _
  · intro r hr hnull
    simp [hnull]

/-! ## C5: fragmentation_rate -/

lemma shelf_util_of_nil (alloc : DF α) (h : alloc.rows = []) :
    shelf_util_of alloc = [] := by
  simp [shelf_util_of, groupKeys, h]

lemma shelf_util_pred_eq (g : ShelfGroup α) :
    ((utilization g).elim false (fun u => decide (0 < u ∧ u < 1 / 10))) =
      (utilization g).elim false (fun u => decide (0 < u) && decide (u < 1 / 10)) := by
  cases hu : utilization g with
  | none => rfl
  | some u => simp [Bool.decide_and]

/-- C5: over the shelf-utilization aggregate groups, `fragmentation_rate`
is undefined iff no groups exist; otherwise it equals the number of groups
whose utilization lies strictly between 0 and 1/10 divided by the number
of groups; a group whose utilization is exactly 0 or exactly 1/10 never
satisfies the numerator predicate. -/
theorem claim_C5_fragmentation {α : Type} [LinearOrderedField α] [DecidableEq α]
    (alloc : DF α) :
    (fragmentation_rate_of alloc = none ↔ shelf_util_of alloc = [])
    ∧ (shelf_util_of alloc ≠ [] →
        fragmentation_rate_of alloc = some
          (((((shelf_util_of alloc).filter (fun g =>
              (utilization g).elim false
                (fun u => decide (0 < u) && decide (u < 1 / 10)))).length : ℕ) : α)
            / ((shelf_util_of alloc).length : α)))
    ∧ (∀ g ∈ shelf_util_of alloc,
        (utilization g = some 0 ∨ utilization g = some (1 / 10)) →
        ((utilization g).elim false
          (fun u => decide (0 < u) && decide (u < 1 / 10))) = false) := by
  refine ⟨?_, ?_, ?_⟩
  · unfold fragmentation_rate_of
    by_cases hrows : alloc.rows.isEmpty
    · rw [if_pos hrows]
      simp [shelf_util_of_nil alloc (List.isEmpty_iff.mp hrows)]
    · rw [if_neg hrows]
      by_cases hlen : (shelf_util_of alloc).length = 0
      · simp [hlen, List.length_eq_zero.mp hlen]
      · simp only [if_neg hlen]
        constructor
        · intro h
          exact absurd h (by simp)
        · intro h
          exact absurd (h ▸ hlen) (by simp)
  · intro hne
    have hrows : ¬ alloc.rows.isEmpty := by
      intro hc
      exact hne (shelf_util_of_nil alloc (List.isEmpty_iff.mp hc))
    have hlen : ¬ (shelf_util_of alloc).length = 0 :=
      fun hc => hne (List.length_eq_zero.mp hc)
    unfold fragmentation_rate_of
    rw [if_neg hrows, if_neg hlen]
    have hfeq : (shelf_util_of alloc).filter
        (fun g => (utilization g).elim false (fun u => decide (0 < u ∧ u < 1 / 10))) =
        (shelf_util_of alloc).filter
          (fun g => (utilization g).elim false
            (fun u => decide (0 < u) && decide (u < 1 / 10))) := by
      apply List.filter_congr
      intro g hg
      exact shelf_util_pred_eq g
    rw [List.countP_eq_length_filter, hfeq]
  · intro g hg hu
    rcases hu with h | h <;> rw [h]
    · show (decide (0 < (0 : α)) && decide ((0 : α) < 1 / 10)) = false
      rw [decide_eq_false (lt_irrefl (0 : α)), Bool.false_and]
    · show (decide (0 < ((1 : α) / 10)) && decide (((1 : α) / 10) < 1 / 10)) = false
      rw [decide_eq_false (lt_irrefl ((1 : α) / 10)), Bool.and_false]

/-- An allocation table for the C5 witness: two shelves, utilizations
1/20 (fragmented) and 1/2 (not fragmented). -/
def fragAlloc : DF ℚ :=
  ⟨["recommended_location", "allocated_volume", "max_size"],
   [[("recommended_location", Cell.str "L1"), ("allocated_volume", Cell.num 5),
     ("max_size", Cell.num 100)],
    [("recommended_location", Cell.str "L2"), ("allocated_volume", Cell.num 5),
     ("max_size", Cell.num 10)]]⟩

/-! ## Evaluated scenario run (identity sqrt), shared by witnesses -/

/-- The engine snapshot of the scenario run with the identity in place of
the square root (so `avg_distance` is 3² + 4² = 25 here; the ℝ run with
the genuine square root is `claim_C2_scenario`). -/
def scnKpis : Kpis ℚ :=
  { timestamp := "t", rows := 2, placed_rows := 1,
    avg_distance := some 25, weighted_distance := none, unplaced_rate := some (1 / 2),
    avg_cube_utilization := some (1 / 2), fragmentation_rate := some 0,
    total_allocated_volume := 5, capacity_ratio := some (1 / 2),
    free_effective_capacity_ratio := none,
    placements_with_capacity_cols_ratio := some (1 / 2) }

/-- The final placements state of the scenario run: the three missing
optional columns appended in place, filled null. -/
def scnPlacementsOut : DF ℚ :=
  ⟨["item_id", "recommended_location", "allocated_volume", "allocated_weight",
    "remaining_size", "remaining_weight"],
   [[("item_id", Cell.str "A"), ("recommended_location", Cell.str "L1"),
     ("allocated_volume", Cell.num 5), ("allocated_weight", Cell.null),
     ("remaining_size", Cell.null), ("remaining_weight", Cell.null)],
    [("item_id", Cell.str "B"), ("recommended_location", Cell.str "UNPLACED"),
     ("allocated_weight", Cell.null), ("remaining_size", Cell.null),
     ("remaining_weight", Cell.null)]]⟩

/-- The joined table of the scenario run (identity sqrt). -/
def scnMerged : DF ℚ :=
  ⟨["item_id", "recommended_location", "allocated_volume", "allocated_weight",
    "remaining_size", "remaining_weight", "location_id", "distance", "max_size",
    "max_weight"],
   [[("item_id", Cell.str "A"), ("recommended_location", Cell.str "L1"),
     ("allocated_volume", Cell.num 5), ("allocated_weight", Cell.null),
     ("remaining_size", Cell.null), ("remaining_weight", Cell.null),
     ("location_id", Cell.str "L1"), ("distance", Cell.num 25),
     ("max_size", Cell.num 10), ("max_weight", Cell.num 100)],
    [("item_id", Cell.str "B"), ("recommended_location", Cell.str "UNPLACED"),
     ("allocated_weight", Cell.null), ("remaining_size", Cell.null),
     ("remaining_weight", Cell.null), ("location_id", Cell.null),
     ("distance", Cell.null), ("max_size", Cell.null), ("max_weight", Cell.null)]]⟩

lemma scn_eval : compute_kpis (fun x : ℚ => x) "t" scnPlacements scnLayoutW none =
    Except.ok (scnKpis, scnPlacementsOut, scnLayoutW) := by
  norm_num +decide [compute_kpis, merged_of, layout_selected, layout_with_distance,
    setColMap, setColConst, setEntry, selectCols, ensure_columns, ensure_step,
    optional_placement_cols, merge_layout, keyMatch, getCell, placed_of, alloc_rows_of,
    notna, toNum, avg_distance_of, unplaced_rate_of, seriesMean, colVals, shelf_util_of,
    groupKeys, utilization, avg_cube_utilization_of, fragmentation_rate_of,
    total_allocated_volume_of, total_capacity_of, seriesSum, capacity_ratio_of,
    free_effective_capacity_ratio_of, latest_last_of, lastPerKey,
    placements_with_capacity_cols_ratio_of, weighted_distance_of, merge_inventory,
    distCell, except_bind_ok, except_bind_err, scnPlacements, scnLayoutW, scnKpis,
    scnPlacementsOut, List.filter, List.find?, List.flatMap, List.filterMap_cons]

lemma scn_merged_eval :
    merged_of (fun x : ℚ => x) scnPlacements scnLayoutW = Except.ok scnMerged := by
  norm_num +decide [merged_of, layout_selected, layout_with_distance, setColMap,
    setColConst, setEntry, selectCols, ensure_columns, ensure_step,
    optional_placement_cols, merge_layout, keyMatch, getCell, notna, toNum, distCell,
    except_bind_ok, except_bind_err, scnPlacements, scnLayoutW, scnMerged,
    List.filter, List.find?, List.flatMap]

/-- Witness for C6 at the scenario tables. -/
theorem claim_C6_witness :
    ((scnKpis.unplaced_rate = none ↔ scnMerged.rows = [])
      ∧ scnKpis.unplaced_rate = some (1 / 2)) := by
  obtain ⟨merged, hm, hiff, hval, hbnd, hnull⟩ :=
    claim_C6_unplaced_rate (fun x : ℚ => x) "t" scnPlacements scnLayoutW none
      scnKpis scnPlacementsOut scnLayoutW scn_eval
  have hmeq : merged = scnMerged := Except.ok.inj (hm.symm.trans scn_merged_eval)
  exact ⟨hmeq ▸ hiff, rfl⟩

/-- Witness for C5: on `fragAlloc` the groups are non-empty and the
fragmentation rate evaluates to 1/2. -/
theorem claim_C5_witness : fragmentation_rate_of fragAlloc = some (1 / 2) := by
  have hne : shelf_util_of fragAlloc ≠ [] := by
    norm_num +decide [shelf_util_of, groupKeys, fragAlloc, getCell, notna, toNum,
      List.filter, List.find?, List.filterMap_cons]
  have h := (claim_C5_fragmentation (α := ℚ) fragAlloc).2.1 hne
  rw [h]
  norm_num +decide [shelf_util_of, groupKeys, fragAlloc, getCell, notna, toNum,
    utilization, List.filter, List.find?, List.filterMap_cons]

/-! ## Structure of `ensure_columns` and column assignment -/

lemma find?_append_of_some {β : Type} (l₁ l₂ : List β) (p : β → Bool) (x : β)
    (h : l₁.find? p = some x) : (l₁ ++ l₂).find? p = some x := by
  induction l₁ with
  | nil => exact absurd h (by simp)
  | cons a l ih =>
    by_cases ha : p a
    · rw [List.find?_cons_of_pos _ ha] at h
      rw [List.cons_append, List.find?_cons_of_pos _ ha]
      exact h
    · rw [List.find?_cons_of_neg _ ha] at h
      rw [List.cons_append, List.find?_cons_of_neg _ ha]
      exact ih h

lemma find?_append_of_none {β : Type} (l₁ l₂ : List β) (p : β → Bool)
    (h : l₁.find? p = none) : (l₁ ++ l₂).find? p = l₂.find? p := by
  induction l₁ with
  | nil => rfl
  | cons a l ih =>
    by_cases ha : p a
    · rw [List.find?_cons_of_pos _ ha] at h
      exact absurd h (by simp)
    · rw [List.find?_cons_of_neg _ ha] at h
      rw [List.cons_append, List.find?_cons_of_neg _ ha]
      exact ih h

lemma find?_filter_of_imp {β : Type} (l : List β) (p q : β → Bool)
    (h : ∀ x, p x = true → q x = true) :
    (l.filter q).find? p = l.find? p := by
  induction l with
  | nil => rfl
  | cons a l ih =>
    rw [List.filter_cons]
    by_cases hq : q a
    · rw [if_pos hq]
      by_cases hp : p a
      · rw [List.find?_cons_of_pos _ hp, List.find?_cons_of_pos _ hp]
      · rw [List.find?_cons_of_neg _ hp, List.find?_cons_of_neg _ hp]
        exact ih
    · have hp : ¬ p a = true := fun hc => hq (h a hc)
      rw [if_neg hq, List.find?_cons_of_neg _ hp]
      exact ih

lemma getCell_setEntry_ne (r : Row α) (c c' : String) (v : Cell α) (h : c' ≠ c) :
    getCell (setEntry r c v) c' = getCell r c' := by
  unfold getCell setEntry
  have hf : (r.filter (fun e => e.1 ≠ c)).find? (fun e => e.1 = c') =
      r.find? (fun e => e.1 = c') := by
    apply find?_filter_of_imp
    intro e he
    simp only [decide_eq_true_eq] at he
    simp [he, h]
  cases hr : r.find? (fun e => e.1 = c') with
  | some x => rw [find?_append_of_some _ _ _ _ (hf.trans hr)]
  | none =>
    rw [find?_append_of_none _ _ _ (hf.trans hr)]
    simp [List.find?, h.symm]

lemma getCell_setEntry_self (r : Row α) (c : String) (v : Cell α) :
    getCell (setEntry r c v) c = v := by
  unfold getCell setEntry
  have hf : (r.filter (fun e => e.1 ≠ c)).find? (fun e => e.1 = c) = none := by
    apply List.find?_eq_none.mpr
    intro e he
    have hmem := List.of_mem_filter he
    simpa using hmem
  rw [find?_append_of_none _ _ _ hf]
  simp [List.find?]

lemma setColConst_getCell_ne (df : DF α) (c c' : String) (v : Cell α) (h : c' ≠ c) :
    (setColConst df c v).rows.map (fun r => getCell r c') =
      df.rows.map (fun r => getCell r c') := by
  unfold setColConst
  rw [List.map_map]
  apply List.map_eq_map_iff.mpr
  intro r hr
  exact getCell_setEntry_ne r c c' v h

lemma setColConst_contains (df : DF α) (c c' : String) (v : Cell α) :
    (setColConst df c v).cols.contains c' =
      (df.cols.contains c' || decide (c' = c)) := by
  unfold setColConst
  by_cases hc : df.cols.contains c
  · rw [if_pos hc]
    by_cases he : c' = c
    · subst he
      simp_all
    · simp [he]
  · rw [if_neg hc]
    simp

lemma ensure_step_contains (df : DF α) (c c' : String) :
    (ensure_step df c).cols.contains c' = (df.cols.contains c' || decide (c' = c)) := by
  unfold ensure_step
  by_cases hc : df.cols.contains c
  · rw [if_pos hc]
    by_cases he : c' = c
    · subst he
      simp_all
    · simp [he]
  · rw [if_neg hc]
    exact setColConst_contains df c c' Cell.null

lemma ensure_step_getCell_ne (df : DF α) (c c' : String) (h : c' ≠ c) :
    (ensure_step df c).rows.map (fun r => getCell r c') =
      df.rows.map (fun r => getCell r c') := by
  unfold ensure_step
  by_cases hc : df.cols.contains c
  · rw [if_pos hc]
  · rw [if_neg hc]
    exact setColConst_getCell_ne df c c' Cell.null h

lemma ensure_step_length (df : DF α) (c : String) :
    (ensure_step df c).rows.length = df.rows.length := by
  unfold ensure_step
  by_cases hc : df.cols.contains c
  · rw [if_pos hc]
  · rw [if_neg hc]
    simp [setColConst]

lemma ensure_foldl_contains (cs : List String) (df : DF α) (c' : String) :
    ((cs.foldl ensure_step df).cols.contains c') =
      (df.cols.contains c' || cs.contains c') := by
  induction cs generalizing df with
  | nil => simp
  | cons c cs ih =>
    rw [List.foldl_cons, ih, ensure_step_contains]
    by_cases he : c' = c <;> simp [he, List.contains_cons]

lemma ensure_foldl_length (cs : List String) (df : DF α) :
    (cs.foldl ensure_step df).rows.length = df.rows.length := by
  induction cs generalizing df with
  | nil => rfl
  | cons c cs ih => rw [List.foldl_cons, ih, ensure_step_length]

lemma ensure_foldl_getCell (cs : List String) (df : DF α) (c' : String)
    (h : df.cols.contains c' = true ∨ c' ∉ cs) :
    ((cs.foldl ensure_step df).rows.map (fun r => getCell r c')) =
      df.rows.map (fun r => getCell r c') := by
  induction cs generalizing df with
  | nil => rfl
  | cons c cs ih =>
    have hne : c' ≠ c ∨ df.cols.contains c = true := by
      rcases h with h | h
      · by_cases he : c' = c
        · subst he
          exact Or.inr h
        · exact Or.inl he
      · exact Or.inl (fun he => h (he ▸ List.mem_cons_self c cs))
    have hstep : (ensure_step df c).rows.map (fun r => getCell r c') =
        df.rows.map (fun r => getCell r c') := by
      rcases hne with hne | hpres
      · exact ensure_step_getCell_ne df c c' hne
      · unfold ensure_step
        rw [if_pos hpres]
    have hnext : (ensure_step df c).cols.contains c' = true ∨ c' ∉ cs := by
      rcases h with h | h
      · left
        rw [ensure_step_contains, h, Bool.true_or]
      · exact Or.inr (fun hc => h (List.mem_cons_of_mem c hc))
    rw [List.foldl_cons, ih _ hnext, hstep]

lemma ensure_foldl_id (cs : List String) (df : DF α)
    (h : ∀ c ∈ cs, df.cols.contains c = true) :
    cs.foldl ensure_step df = df := by
  induction cs with
  | nil => rfl
  | cons c cs ih =>
    rw [List.foldl_cons]
    have hstep : ensure_step df c = df := by
      unfold ensure_step
      rw [if_pos (h c (List.mem_cons_self c cs))]
    rw [hstep]
    exact ih (fun c' hc' => h c' (List.mem_cons_of_mem c hc'))

/-! ## C3 (amended): the engine's frame effect on its inputs -/

/-- C3 (amended): a successful engine run returns the inventory argument
untouched (the embedding gives the Engine no way to write it, and no part
of the Engine writes the history table), but the placements and layout
tables are only conditionally unchanged: the placements table is returned
unchanged when all four optional columns are already present and is
otherwise extended in place with the missing columns (null-filled), every
pre-existing column keeping its values and the row count unchanged; the
layout table is returned unchanged when both coordinate columns are
present, and otherwise has the null distance column assigned in place. -/
theorem claim_C3_frame {α : Type} [LinearOrderedField α] [DecidableEq α]
    (sqrt : α → α) (now : String) (P L : DF α) (inv : Option (DF α))
    (k : Kpis α) (p' l' : DF α)
    (hok : compute_kpis sqrt now P L inv = Except.ok (k, p', l')) :
    ((∀ c ∈ optional_placement_cols, P.cols.contains c = true) → p' = P)
    ∧ (∀ c, P.cols.contains c = true →
        p'.rows.map (fun r => getCell r c) = P.rows.map (fun r => getCell r c))
    ∧ p'.rows.length = P.rows.length
    ∧ (∀ c ∈ optional_placement_cols, P.cols.contains c = false → p' ≠ P)
    ∧ ((L.cols.contains "x_coord" && L.cols.contains "y_coord") = true → l' = L)
    ∧ ((L.cols.contains "x_coord" && L.cols.contains "y_coord") = false →
        l' = setColConst L "distance" Cell.null
          ∧ (L.cols.contains "distance" = false → l' ≠ L)) := by
  obtain ⟨merged, wd, hm, hw, hk, hp, hl⟩ := compute_kpis_ok_decomp hok
  refine ⟨?_, ?_, ?_, ?_, ?_, ?_⟩
  · intro h
    rw [hp]
    exact ensure_foldl_id _ _ h
  · intro c hc
    rw [hp]
    exact ensure_foldl_getCell _ _ _ (Or.inl hc)
  · rw [hp]
    exact ensure_foldl_length _ _
  · intro c hcopt hcabs heq
    have h1 : p'.cols.contains c = true := by
      rw [hp]
      unfold ensure_columns
      rw [ensure_foldl_contains, hcabs, Bool.false_or]
      simpa using hcopt
    rw [heq, hcabs] at h1
    exact Bool.false_ne_true h1
  · intro hcoords
    rw [hl, if_pos hcoords]
  · intro hcoords
    have hl' : l' = setColConst L "distance" Cell.null := by
      rw [hl, if_neg (fun hcond => Bool.false_ne_true (hcoords ▸ hcond))]
      unfold layout_with_distance
      rw [if_neg (fun hcond => Bool.false_ne_true (hcoords ▸ hcond))]
    refine ⟨hl', ?_⟩
    intro hdist heq
    have h1 : l'.cols.contains "distance" = true := by
      rw [hl', setColConst_contains, hdist]
      simp
    rw [heq, hdist] at h1
    exact Bool.false_ne_true h1

/-- Witness for C3: in the scenario run the placements table comes back
with three extra columns (so it is not the input table), while the values
of its pre-existing `allocated_volume` column are unchanged. -/
theorem claim_C3_witness :
    scnPlacementsOut ≠ (scnPlacements (α := ℚ))
    ∧ scnPlacementsOut.rows.map (fun r => getCell r "allocated_volume") =
        (scnPlacements (α := ℚ)).rows.map (fun r => getCell r "allocated_volume") := by
  have h := claim_C3_frame (fun x : ℚ => x) "t" scnPlacements scnLayoutW none
    scnKpis scnPlacementsOut scnLayoutW scn_eval
  constructor
  · exact h.2.2.2.1 "allocated_weight" (by decide) (by decide)
  · exact h.2.1 "allocated_volume" (by decide)

/-! ## C1 (amended): free_effective_capacity_ratio -/

/-- Amended C1 reduction, following the claim's words with the one change
the counterexample forces: keep, in file order, the last row per
recommended-location (including the sentinel `UNPLACED`), but exclude rows
whose recommended-location is null, as the code's `groupby` (which drops
null keys) does. -/
def amended_last_per_location (rows : List (Row α)) : List (Row α) :=
  rows.foldr
    (fun r acc =>
      if getCell r "recommended_location" = Cell.null then acc
      else if acc.any (fun r2 =>
          getCell r2 "recommended_location" = getCell r "recommended_location") then acc
      else r :: acc)
    []

/-- Amended C1 value of free_effective_capacity_ratio: the sum of
remaining-size over the amended row reduction of the full placements
table, divided by total capacity; undefined when the capacity is undefined
or non-positive or no row survives (in particular whenever the placements
table has no remaining-size column). -/
def amended_free_ratio (P L : DF α) : Option α :=
  let tc : Option α :=
    if L.cols.contains "max_size" then some (seriesSum L "max_size") else none
  let ll := amended_last_per_location (claim_qualifying_rows P)
  match tc with
  | some t =>
    if 0 < t ∧ ¬ ll.isEmpty then
      some ((ll.filterMap (fun r => toNum (getCell r "remaining_size"))).sum / t)
    else none
  | none => none

/-- Agreement of two rows on the two columns the free-capacity pipeline
reads. -/
def row_rel (r r' : Row α) : Prop :=
  getCell r "recommended_location" = getCell r' "recommended_location"
  ∧ getCell r "remaining_size" = getCell r' "remaining_size"

lemma forall₂_rel_of_maps (l₁ l₂ : List (Row α))
    (h1 : l₁.map (fun r => getCell r "recommended_location") =
          l₂.map (fun r => getCell r "recommended_location"))
    (h2 : l₁.map (fun r => getCell r "remaining_size") =
          l₂.map (fun r => getCell r "remaining_size")) :
    List.Forall₂ (row_rel (α := α)) l₁ l₂ := by
  induction l₁ generalizing l₂ with
  | nil =>
    cases l₂ with
    | nil => exact List.Forall₂.nil
    | cons b l => simp at h1
  | cons a l ih =>
    cases l₂ with
    | nil => simp at h1
    | cons b l₂ =>
      simp only [List.map_cons, List.cons.injEq] at h1 h2
      exact List.Forall₂.cons ⟨h1.1, h2.1⟩ (ih _ h1.2 h2.2)

lemma any_key_congr {l₁ l₂ : List (Row α)}
    (h : List.Forall₂ (row_rel (α := α)) l₁ l₂) (k : Cell α) :
    l₁.any (fun r => getCell r "recommended_location" = k) =
      l₂.any (fun r => getCell r "recommended_location" = k) := by
  induction h with
  | nil => rfl
  | cons hr ht ih => simp [List.any_cons, hr.1, ih]

lemma filter_rem_forall₂ {l₁ l₂ : List (Row α)}
    (h : List.Forall₂ (row_rel (α := α)) l₁ l₂) :
    List.Forall₂ (row_rel (α := α))
      (l₁.filter (fun r => notna (getCell r "remaining_size")))
      (l₂.filter (fun r => notna (getCell r "remaining_size"))) := by
  induction h with
  | nil => exact List.Forall₂.nil
  | @cons a b l₁ l₂ hr ht ih =>
    rw [List.filter_cons, List.filter_cons]
    have hcond : notna (getCell b "remaining_size") = notna (getCell a "remaining_size") := by
      rw [hr.2]
    by_cases hn : notna (getCell a "remaining_size") = true
    · rw [if_pos hn, if_pos (hcond.trans hn)]
      exact List.Forall₂.cons hr ih
    · rw [if_neg hn, if_neg (fun hc => hn (hcond ▸ hc))]
      exact ih

lemma lastPerKey_forall₂ {l₁ l₂ : List (Row α)}
    (h : List.Forall₂ (row_rel (α := α)) l₁ l₂) :
    List.Forall₂ (row_rel (α := α)) (lastPerKey l₁) (lastPerKey l₂) := by
  induction h with
  | nil => exact List.Forall₂.nil
  | @cons a b l₁ l₂ hr ht ih =>
    show List.Forall₂ _ (lastPerKey (a :: l₁)) (lastPerKey (b :: l₂))
    unfold lastPerKey
    have hany : l₂.any (fun r2 =>
        getCell r2 "recommended_location" = getCell b "recommended_location") =
        l₁.any (fun r2 =>
          getCell r2 "recommended_location" = getCell a "recommended_location") := by
      rw [← hr.1, any_key_congr ht]
    by_cases hnull : getCell a "recommended_location" = Cell.null
    · rw [if_pos hnull, if_pos (hr.1 ▸ hnull)]
      exact ih
    · rw [if_neg hnull, if_neg (fun hc => hnull (hr.1.symm ▸ hc))]
      by_cases hA : l₁.any (fun r2 =>
          getCell r2 "recommended_location" = getCell a "recommended_location") = true
      · rw [if_pos hA, if_pos (hany.trans hA)]
        exact ih
      · rw [if_neg hA, if_neg (fun hc => hA (hany ▸ hc))]
        exact List.Forall₂.cons hr ih

lemma forall₂_rem_map {l₁ l₂ : List (Row α)}
    (h : List.Forall₂ (row_rel (α := α)) l₁ l₂) :
    l₁.map (fun r => getCell r "remaining_size") =
      l₂.map (fun r => getCell r "remaining_size") := by
  induction h with
  | nil => rfl
  | cons hr ht ih => simp [List.map_cons, hr.2, ih]

lemma amended_cons (r : Row α) (rs : List (Row α)) :
    amended_last_per_location (r :: rs) =
      (if getCell r "recommended_location" = Cell.null then
        amended_last_per_location rs
      else if (amended_last_per_location rs).any (fun r2 =>
          getCell r2 "recommended_location" = getCell r "recommended_location") then
        amended_last_per_location rs
      else r :: amended_last_per_location rs) := rfl

lemma lastPerKey_cons (r : Row α) (rs : List (Row α)) :
    lastPerKey (r :: rs) =
      (if getCell r "recommended_location" = Cell.null then lastPerKey rs
      else if rs.any (fun r2 =>
          getCell r2 "recommended_location" = getCell r "recommended_location") then
        lastPerKey rs
      else r :: lastPerKey rs) := rfl

lemma amended_any_key (l : List (Row α)) (k : Cell α) (hk : k ≠ Cell.null) :
    (amended_last_per_location l).any
        (fun r2 => getCell r2 "recommended_location" = k) =
      l.any (fun r2 => getCell r2 "recommended_location" = k) := by
  induction l with
  | nil => rfl
  | cons r rs ih =>
    rw [amended_cons, List.any_cons]
    by_cases hnull : getCell r "recommended_location" = Cell.null
    · rw [if_pos hnull]
      have hrk : (getCell r "recommended_location" = k) = False := by
        simp [hnull, Ne.symm hk]
      simp only [hrk, decide_False, Bool.false_or]
      exact ih
    · rw [if_neg hnull]
      by_cases hA : (amended_last_per_location rs).any (fun r2 =>
          getCell r2 "recommended_location" = getCell r "recommended_location") = true
      · rw [if_pos hA]
        by_cases hrk : getCell r "recommended_location" = k
        · rw [ih]
          have hany : rs.any (fun r2 => getCell r2 "recommended_location" = k) = true := by
            rw [← ih, ← hrk]
            exact hA
          simp [hany]
        · simp only [hrk, decide_False, Bool.false_or]
          exact ih
      · rw [if_neg hA, List.any_cons, ih]

lemma lastPerKey_eq_amended (l : List (Row α)) :
    lastPerKey l = amended_last_per_location l := by
  induction l with
  | nil => rfl
  | cons r rs ih =>
    rw [amended_cons, lastPerKey_cons]
    by_cases hnull : getCell r "recommended_location" = Cell.null
    · rw [if_pos hnull, if_pos hnull]
      exact ih
    · rw [if_neg hnull, if_neg hnull]
      have hany : (amended_last_per_location rs).any (fun r2 =>
          getCell r2 "recommended_location" = getCell r "recommended_location") =
          rs.any (fun r2 =>
            getCell r2 "recommended_location" = getCell r "recommended_location") :=
        amended_any_key rs _ hnull
      by_cases hA : rs.any (fun r2 =>
          getCell r2 "recommended_location" = getCell r "recommended_location") = true
      · rw [if_pos hA, if_pos (hany.trans hA)]
        exact ih
      · rw [if_neg hA, if_neg (fun hc => hA (hany ▸ hc))]
        rw [ih]

lemma map_eq_const_mem {β γ : Type} (l : List β) (f : β → γ) (v : γ)
    (h : l.map f = l.map (fun _ => v)) : ∀ x ∈ l, f x = v := by
  induction l with
  | nil => intro x hx; exact absurd hx (List.not_mem_nil x)
  | cons a l ih =>
    simp only [List.map_cons, List.cons.injEq] at h
    intro x hx
    rcases List.mem_cons.mp hx with hx | hx
    · rw [hx]; exact h.1
    · exact ih h.2 x hx

lemma setColConst_getCell_self (df : DF α) (c : String) (v : Cell α) :
    (setColConst df c v).rows.map (fun r => getCell r c) =
      df.rows.map (fun _ => v) := by
  unfold setColConst
  rw [List.map_map]
  apply List.map_eq_map_iff.mpr
  intro r hr
  exact getCell_setEntry_self r c v

lemma ensure_absent_null (cs : List String) (df : DF α) (c : String)
    (hnd : cs.Nodup) (hc : c ∈ cs) (habs : df.cols.contains c = false) :
    (cs.foldl ensure_step df).rows.map (fun r => getCell r c) =
      df.rows.map (fun _ => Cell.null) := by
  revert hnd hc habs
  induction cs generalizing df with
  | nil =>
    intro _ hc _
    exact absurd hc (List.not_mem_nil c)
  | cons c₀ cs ih =>
    intro hnd hc habs
    rw [List.foldl_cons]
    by_cases he : c₀ = c
    · subst he
      have hstep : ensure_step df c₀ = setColConst df c₀ Cell.null := by
        unfold ensure_step
        rw [if_neg (fun hcond => Bool.false_ne_true (habs ▸ hcond))]
      rw [hstep]
      have hnotin : c₀ ∉ cs := (List.nodup_cons.mp hnd).1
      rw [ensure_foldl_getCell cs _ c₀ (Or.inr hnotin)]
      exact setColConst_getCell_self df c₀ Cell.null
    · have hnext_abs : (ensure_step df c₀).cols.contains c = false := by
        rw [ensure_step_contains, habs]
        have hne : c ≠ c₀ := fun hh => he hh.symm
        simp [hne]
      have hmem : c ∈ cs := by
        rcases List.mem_cons.mp hc with hh | hh
        · exact absurd hh.symm he
        · exact hh
      rw [ih (ensure_step df c₀) (List.nodup_cons.mp hnd).2 hmem hnext_abs]
      rw [List.map_const', List.map_const', ensure_step_length]

lemma setColMap_contains (df : DF α) (c c' : String) (f : Row α → Cell α) :
    (setColMap df c f).cols.contains c' = (df.cols.contains c' || decide (c' = c)) := by
  unfold setColMap
  by_cases hc : df.cols.contains c
  · rw [if_pos hc]
    by_cases he : c' = c
    · subst he
      simp_all
    · simp [he]
  · rw [if_neg hc]
    simp

lemma setColMap_getCell_ne (df : DF α) (c c' : String) (f : Row α → Cell α)
    (h : c' ≠ c) :
    (setColMap df c f).rows.map (fun r => getCell r c') =
      df.rows.map (fun r => getCell r c') := by
  unfold setColMap
  rw [List.map_map]
  apply List.map_eq_map_iff.mpr
  intro r hr
  exact getCell_setEntry_ne r c c' (f r) h

lemma seriesSum_eq_of_map (df₁ df₂ : DF α) (c : String)
    (h : df₁.rows.map (fun r => getCell r c) = df₂.rows.map (fun r => getCell r c)) :
    seriesSum df₁ c = seriesSum df₂ c := by
  unfold seriesSum colVals
  have hfm : ∀ (l : List (Row α)),
      (l.filterMap fun r => toNum (getCell r c)) =
        (l.map (fun r => getCell r c)).filterMap toNum := by
    intro l
    rw [List.filterMap_map]
    rfl
  rw [hfm, hfm, h]

lemma layout_with_distance_contains (sqrt : α → α) (L : DF α) (c' : String)
    (h : c' ≠ "distance") :
    (layout_with_distance sqrt L).cols.contains c' = L.cols.contains c' := by
  unfold layout_with_distance
  by_cases hxy : (L.cols.contains "x_coord" && L.cols.contains "y_coord") = true
  · rw [if_pos hxy, setColMap_contains]
    simp [h]
  · rw [if_neg hxy, setColConst_contains]
    simp [h]

lemma layout_with_distance_getCell (sqrt : α → α) (L : DF α) (c' : String)
    (h : c' ≠ "distance") :
    (layout_with_distance sqrt L).rows.map (fun r => getCell r c') =
      L.rows.map (fun r => getCell r c') := by
  unfold layout_with_distance
  by_cases hxy : (L.cols.contains "x_coord" && L.cols.contains "y_coord") = true
  · rw [if_pos hxy]
    exact setColMap_getCell_ne L "distance" c' _ h
  · rw [if_neg hxy]
    exact setColConst_getCell_ne L "distance" c' Cell.null h

/-- Line 108's total capacity, computed on the working layout, agrees with
the capacity read off the input layout table. -/
lemma total_capacity_layout_work (sqrt : α → α) (L : DF α) :
    total_capacity_of (layout_with_distance sqrt L) =
      (if L.cols.contains "max_size" then some (seriesSum L "max_size") else none) := by
  unfold total_capacity_of
  rw [layout_with_distance_contains sqrt L "max_size" (by decide)]
  by_cases hms : L.cols.contains "max_size" = true
  · rw [if_pos hms, if_pos hms]
    congr 1
    apply seriesSum_eq_of_map
    exact layout_with_distance_getCell sqrt L "max_size" (by decide)
  · rw [if_neg hms, if_neg hms]

lemma isEmpty_eq_of_length {β γ : Type} {l₁ : List β} {l₂ : List γ}
    (h : l₁.length = l₂.length) : l₁.isEmpty = l₂.isEmpty := by
  cases l₁ <;> cases l₂ <;> simp_all

lemma latest_sum_eq {l₁ l₂ : List (Row α)}
    (h : List.Forall₂ (row_rel (α := α)) l₁ l₂) :
    (l₁.filterMap fun r => toNum (getCell r "remaining_size")).sum =
      (l₂.filterMap fun r => toNum (getCell r "remaining_size")).sum := by
  have hm := forall₂_rem_map h
  have hfm : ∀ (l : List (Row α)),
      (l.filterMap fun r => toNum (getCell r "remaining_size")) =
        (l.map (fun r => getCell r "remaining_size")).filterMap toNum := by
    intro l
    rw [List.filterMap_map]
    rfl
  rw [hfm, hfm, hm]

/-- C1 (amended): for every successful engine run,
`free_effective_capacity_ratio` equals the amended claim's value: restrict
the full placements table to rows with a defined remaining-size value,
keep — in file order — only the last such row per recommended-location,
where rows with a null recommended-location are excluded (the sentinel
`UNPLACED` is kept as an ordinary key), and divide the sum of their
remaining-size values by total_capacity; undefined exactly when
total_capacity is non-positive or no row survives (in particular whenever
the placements table has no remaining-size column). -/
theorem claim_C1_free_ratio {α : Type} [LinearOrderedField α] [DecidableEq α]
    (sqrt : α → α) (now : String) (P L : DF α) (inv : Option (DF α))
    (k : Kpis α) (p' l' : DF α)
    (hok : compute_kpis sqrt now P L inv = Except.ok (k, p', l')) :
    k.free_effective_capacity_ratio = amended_free_ratio P L := by
  obtain ⟨merged, wd, hm, hw, hk, hp, hl⟩ := compute_kpis_ok_decomp hok
  have hfree : k.free_effective_capacity_ratio =
      free_effective_capacity_ratio_of (ensure_columns P)
        (total_capacity_of (layout_with_distance sqrt L)) := by rw [hk]
  rw [hfree, total_capacity_layout_work]
  unfold free_effective_capacity_ratio_of amended_free_ratio
  have hremcol : (ensure_columns P).cols.contains "remaining_size" = true := by
    unfold ensure_columns
    rw [ensure_foldl_contains]
    simp [optional_placement_cols]
  rw [if_pos hremcol]
  unfold latest_last_of claim_qualifying_rows
  by_cases hPrem : P.cols.contains "remaining_size" = true
  · rw [if_pos hPrem]
    have hrec_map : (ensure_columns P).rows.map
        (fun r => getCell r "recommended_location") =
        P.rows.map (fun r => getCell r "recommended_location") := by
      unfold ensure_columns
      exact ensure_foldl_getCell _ _ _ (Or.inr (by decide))
    have hrem_map : (ensure_columns P).rows.map (fun r => getCell r "remaining_size") =
        P.rows.map (fun r => getCell r "remaining_size") := by
      unfold ensure_columns
      exact ensure_foldl_getCell _ _ _ (Or.inl hPrem)
    have hrel : List.Forall₂ (row_rel (α := α)) P.rows (ensure_columns P).rows :=
      forall₂_rel_of_maps _ _ hrec_map.symm hrem_map.symm
    have hrell := lastPerKey_forall₂ (filter_rem_forall₂ hrel)
    have hempty : (lastPerKey ((ensure_columns P).rows.filter
        (fun r => notna (getCell r "remaining_size")))).isEmpty =
        (amended_last_per_location (P.rows.filter
          (fun r => notna (getCell r "remaining_size")))).isEmpty := by
      rw [← lastPerKey_eq_amended]
      exact (isEmpty_eq_of_length hrell.length_eq).symm
    have hsum : ((lastPerKey ((ensure_columns P).rows.filter
        (fun r => notna (getCell r "remaining_size")))).filterMap
          (fun r => toNum (getCell r "remaining_size"))).sum =
        ((amended_last_per_location (P.rows.filter
          (fun r => notna (getCell r "remaining_size")))).filterMap
            (fun r => toNum (getCell r "remaining_size"))).sum := by
      rw [← lastPerKey_eq_amended]
      exact (latest_sum_eq hrell).symm
    by_cases hms : L.cols.contains "max_size" = true
    · rw [if_pos hms]
      dsimp only
      rw [hempty, hsum]
      apply if_congr
      · constructor
        · rintro ⟨h1, h2, h3⟩
          exact ⟨h2, h3⟩
        · rintro ⟨h2, h3⟩
          exact ⟨ne_of_gt h2, h2, h3⟩
      · rfl
      · rfl
    · rw [if_neg hms]
  · rw [if_neg hPrem]
    have habs : (ensure_columns P).rows.map (fun r => getCell r "remaining_size") =
        P.rows.map (fun _ => Cell.null) := by
      unfold ensure_columns
      exact ensure_absent_null _ _ _ (by decide) (by decide)
        (Bool.not_eq_true _ ▸ hPrem)
    have habs2 : (ensure_columns P).rows.map (fun r => getCell r "remaining_size") =
        (ensure_columns P).rows.map (fun _ => Cell.null) := by
      rw [habs, List.map_const', List.map_const']
      unfold ensure_columns
      rw [ensure_foldl_length]
    have hpoint := map_eq_const_mem _ _ _ habs2
    have hfilter : (ensure_columns P).rows.filter
        (fun r => notna (getCell r "remaining_size")) = [] := by
      rw [List.filter_eq_nil_iff]
      intro r hr
      simp [notna, hpoint r hr]
    rw [hfilter]
    by_cases hms : L.cols.contains "max_size" = true
    · rw [if_pos hms]
      dsimp only
      rw [if_neg (fun hcond => hcond.2.2 rfl), if_neg (fun hcond => hcond.2 rfl)]
    · rw [if_neg hms]

/-- A placements table exercising the free-capacity reduction: two rows for
`L1` (the later one counts), one `UNPLACED` row (kept), and one null-location
row (dropped by the code). -/
def freePlacements : DF ℚ :=
  ⟨["item_id", "recommended_location", "remaining_size"],
   [[("item_id", Cell.str "A"), ("recommended_location", Cell.str "L1"),
     ("remaining_size", Cell.num 4)],
    [("item_id", Cell.str "B"), ("recommended_location", Cell.str "L1"),
     ("remaining_size", Cell.num 3)],
    [("item_id", Cell.str "C"), ("recommended_location", Cell.str "UNPLACED"),
     ("remaining_size", Cell.num 2)],
    [("item_id", Cell.str "D"), ("recommended_location", Cell.null),
     ("remaining_size", Cell.num 9)]]⟩

/-- The engine snapshot of the `freePlacements` run: the latest rows per
location are B (3) and C (2), so the free ratio is 5/10 = 1/2. -/
def freeKpis : Kpis ℚ :=
  { timestamp := "t", rows := 4, placed_rows := 2, avg_distance := none,
    weighted_distance := none, unplaced_rate := some (1 / 4),
    avg_cube_utilization := none, fragmentation_rate := none,
    total_allocated_volume := 0, capacity_ratio := some 0,
    free_effective_capacity_ratio := some (1 / 2),
    placements_with_capacity_cols_ratio := some 0 }

/-- The final placements state of the `freePlacements` run. -/
def freePlacementsOut : DF ℚ :=
  ⟨["item_id", "recommended_location", "remaining_size", "allocated_volume",
    "allocated_weight", "remaining_weight"],
   [[("item_id", Cell.str "A"), ("recommended_location", Cell.str "L1"),
     ("remaining_size", Cell.num 4), ("allocated_volume", Cell.null),
     ("allocated_weight", Cell.null), ("remaining_weight", Cell.null)],
    [("item_id", Cell.str "B"), ("recommended_location", Cell.str "L1"),
     ("remaining_size", Cell.num 3), ("allocated_volume", Cell.null),
     ("allocated_weight", Cell.null), ("remaining_weight", Cell.null)],
    [("item_id", Cell.str "C"), ("recommended_location", Cell.str "UNPLACED"),
     ("remaining_size", Cell.num 2), ("allocated_volume", Cell.null),
     ("allocated_weight", Cell.null), ("remaining_weight", Cell.null)],
    [("item_id", Cell.str "D"), ("recommended_location", Cell.null),
     ("remaining_size", Cell.num 9), ("allocated_volume", Cell.null),
     ("allocated_weight", Cell.null), ("remaining_weight", Cell.null)]]⟩

/-- The final layout state of the `freePlacements` run (no coordinate
columns, so the null distance column is assigned in place). -/
def freeLayoutOut : DF ℚ :=
  ⟨["location_id", "max_size", "max_weight", "distance"],
   [[("location_id", Cell.str "L1"), ("max_size", Cell.num 10),
     ("max_weight", Cell.num 100), ("distance", Cell.null)]]⟩

lemma free_eval : compute_kpis (fun x : ℚ => x) "t" freePlacements smallLayout none =
    Except.ok (freeKpis, freePlacementsOut, freeLayoutOut) := by
  norm_num +decide [compute_kpis, merged_of, layout_selected, layout_with_distance,
    setColMap, setColConst, setEntry, selectCols, ensure_columns, ensure_step,
    optional_placement_cols, merge_layout, keyMatch, getCell, placed_of, alloc_rows_of,
    notna, toNum, avg_distance_of, unplaced_rate_of, seriesMean, colVals, shelf_util_of,
    groupKeys, utilization, avg_cube_utilization_of, fragmentation_rate_of,
    total_allocated_volume_of, total_capacity_of, seriesSum, capacity_ratio_of,
    free_effective_capacity_ratio_of, latest_last_of, lastPerKey,
    placements_with_capacity_cols_ratio_of, weighted_distance_of, merge_inventory,
    distCell, except_bind_ok, except_bind_err, freePlacements, smallLayout, freeKpis,
    freePlacementsOut, freeLayoutOut, List.filter, List.find?, List.flatMap,
    List.filterMap_cons]

/-- Witness for C1: on `freePlacements` and `smallLayout` the amended value
is defined and equals 1/2, and the engine's snapshot agrees. -/
theorem claim_C1_witness :
    amended_free_ratio freePlacements (smallLayout (α := ℚ)) = some (1 / 2)
    ∧ freeKpis.free_effective_capacity_ratio = some (1 / 2) := by
  have h := claim_C1_free_ratio (fun x : ℚ => x) "t" freePlacements smallLayout none
    freeKpis freePlacementsOut freeLayoutOut free_eval
  exact ⟨h.symm.trans rfl, rfl⟩

/-! ## C10: location extraction in the place-item endpoint -/

lemma pySplitLast_of_find_none (sep s : Chars) (h : findSub sep s = none) :
    pySplitLast sep s = s := by
  unfold pySplitLast
  split
  · rfl
  · split
    · rfl
    · next i hf =>
      rw [h] at hf
      cases hf

lemma pySplitLast_of_find_some (sep s : Chars) (hne : sep.isEmpty = false)
    (i : ℕ) (h : findSub sep s = some i) :
    pySplitLast sep s = pySplitLast sep (s.drop (i + sep.length)) := by
  conv_lhs => unfold pySplitLast
  split
  · next hsep =>
    rw [hsep] at hne
    cases hne
  · split
    · next hf =>
      rw [h] at hf
      cases hf
    · next j hf =>
      rw [h] at hf
      cases hf
      rfl

lemma subAt_le_length (sep s : Chars) (p : ℕ) (hne : sep ≠ [])
    (h : subAt sep s p = true) : p + sep.length ≤ s.length := by
  have hpre : sep <+: s.drop p := List.isPrefixOf_iff_prefix.mp h
  have hlen : sep.length ≤ (s.drop p).length := hpre.length_le
  rw [List.length_drop] at hlen
  have hpos : 0 < sep.length := List.length_pos.mpr hne
  omega

lemma find?_range_first : ∀ (n : ℕ) (p : ℕ → Bool) (i : ℕ),
    (List.range n).find? p = some i → p i = true ∧ ∀ j < i, p j = false := by
  intro n
  induction n with
  | zero =>
    intro p i h
    exact absurd h (by simp)
  | succ n ih =>
    intro p i h
    rw [List.range_succ_eq_map] at h
    by_cases h0 : p 0
    · rw [List.find?_cons_of_pos _ h0] at h
      cases h
      exact ⟨h0, fun j hj => absurd hj (Nat.not_lt_zero j)⟩
    · rw [List.find?_cons_of_neg _ h0, List.find?_map] at h
      cases hfind : (List.range n).find? (p ∘ (· + 1)) with
      | none =>
        rw [hfind] at h
        cases h
      | some a =>
        rw [hfind] at h
        have hi : i = a + 1 := by
          simp only [Option.map_some'] at h
          exact (Option.some.inj h).symm
        subst hi
        obtain ⟨hpa, hlt⟩ := ih (p ∘ (· + 1)) a hfind
        refine ⟨hpa, ?_⟩
        intro j hj
        cases j with
        | zero => simpa using h0
        | succ j' => exact hlt j' (by omega)

lemma occursList_mem (sep s : Chars) (hne : sep ≠ []) (p : ℕ) :
    p ∈ occursList sep s ↔ subAt sep s p = true := by
  unfold occursList
  rw [List.mem_filter, List.mem_range]
  constructor
  · exact fun h => h.2
  · intro h
    refine ⟨?_, h⟩
    have hle := subAt_le_length sep s p hne h
    have hpos : 0 < sep.length := List.length_pos.mpr hne
    omega

lemma occursList_sorted (sep s : Chars) :
    (occursList sep s).Pairwise (· < ·) :=
  List.Pairwise.filter _ (List.pairwise_lt_range _)

lemma sorted_getLast?_eq {l : List ℕ} (hs : l.Pairwise (· < ·)) (p : ℕ)
    (hp : p ∈ l) (hub : ∀ q ∈ l, q ≤ p) : l.getLast? = some p := by
  induction l with
  | nil => exact absurd hp (List.not_mem_nil p)
  | cons a l ih =>
    cases l with
    | nil =>
      have hpa : p = a := by simpa using hp
      subst hpa
      rfl
    | cons b l2 =>
      rw [List.getLast?_cons_cons]
      have hs' := (List.pairwise_cons.mp hs).2
      have hmem : p ∈ b :: l2 := by
        rcases List.mem_cons.mp hp with hpa | hpl
        · have hab : a < b := (List.pairwise_cons.mp hs).1 b (List.mem_cons_self b l2)
          have hba : b ≤ p := hub b (List.mem_cons_of_mem a (List.mem_cons_self b l2))
          exact absurd hba (by omega)
        · exact hpl
      exact ih hs' hmem (fun q hq => hub q (List.mem_cons_of_mem a hq))

lemma sorted_getLast?_ub {l : List ℕ} (hs : l.Pairwise (· < ·)) {p : ℕ}
    (h : l.getLast? = some p) : ∀ q ∈ l, q ≤ p := by
  induction l with
  | nil => simp at h
  | cons a l ih =>
    cases l with
    | nil =>
      have hap : a = p := by simpa using h
      subst hap
      intro q hq
      have : q = a := by simpa using hq
      omega
    | cons b l2 =>
      rw [List.getLast?_cons_cons] at h
      have hs' := (List.pairwise_cons.mp hs).2
      intro q hq
      rcases List.mem_cons.mp hq with hqa | hql
      · subst hqa
        have hpmem : p ∈ b :: l2 := List.mem_of_mem_getLast? h
        have := (List.pairwise_cons.mp hs).1 p hpmem
        omega
      · exact ih hs' h q hql

lemma lastOccIdx_spec (sep s : Chars) (hne : sep ≠ []) (p : ℕ)
    (h : lastOccIdx sep s = some p) :
    subAt sep s p = true ∧ ∀ q, subAt sep s q = true → q ≤ p := by
  unfold lastOccIdx at h
  have hmem : p ∈ occursList sep s := List.mem_of_mem_getLast? h
  refine ⟨(occursList_mem sep s hne p).mp hmem, ?_⟩
  intro q hq
  exact sorted_getLast?_ub (occursList_sorted sep s) h q
    ((occursList_mem sep s hne q).mpr hq)

lemma lastOccIdx_intro (sep s : Chars) (hne : sep ≠ []) (p : ℕ)
    (hp : subAt sep s p = true) (hub : ∀ q, subAt sep s q = true → q ≤ p) :
    lastOccIdx sep s = some p := by
  unfold lastOccIdx
  exact sorted_getLast?_eq (occursList_sorted sep s) p
    ((occursList_mem sep s hne p).mpr hp)
    (fun q hq => hub q ((occursList_mem sep s hne q).mp hq))

lemma no_overlap (sep s : Chars) (hov : overlapFree sep) {p q : ℕ}
    (hp : subAt sep s p = true) (hq : subAt sep s q = true)
    (hpq : p < q) (hcon : q < p + sep.length) : False := by
  have hd1 : 0 < q - p := by omega
  have hd2 : q - p < sep.length := by omega
  have hpre_p : sep <+: s.drop p := List.isPrefixOf_iff_prefix.mp hp
  obtain ⟨u, hu⟩ := hpre_p
  have hdq : s.drop q = sep.drop (q - p) ++ u := by
    have h1 : s.drop q = (s.drop p).drop (q - p) := by
      rw [List.drop_drop]
      congr 1
      omega
    rw [h1, ← hu, List.drop_append_of_le_length (by omega)]
  have hpre_q : sep <+: sep.drop (q - p) ++ u := by
    rw [← hdq]
    exact List.isPrefixOf_iff_prefix.mp hq
  have htake : sep.take (sep.length - (q - p)) = sep.drop (q - p) := by
    have h1 : sep = (sep.drop (q - p) ++ u).take sep.length :=
      List.prefix_iff_eq_take.mp hpre_q
    have h2 : sep.take (sep.length - (q - p)) =
        ((sep.drop (q - p) ++ u).take sep.length).take (sep.length - (q - p)) := by
      rw [← h1]
    rw [List.take_take, min_eq_left (by omega)] at h2
    have h3 : (sep.drop (q - p) ++ u).take (sep.length - (q - p)) =
        sep.drop (q - p) := by
      have hlen : (sep.drop (q - p)).length = sep.length - (q - p) := by
        rw [List.length_drop]
      rw [← hlen, List.take_left]
    rw [h3] at h2
    exact h2
  exact hov (q - p) hd2 hd1 htake

lemma pySplitLast_eq_lastOcc (sep : Chars) (hne : sep ≠ [])
    (hov : overlapFree sep) :
    ∀ (n : ℕ) (s : Chars), s.length ≤ n →
      pySplitLast sep s = (match lastOccIdx sep s with
        | some p => s.drop (p + sep.length)
        | none => s) := by
  have hmpos : 0 < sep.length := List.length_pos.mpr hne
  intro n
  induction n with
  | zero =>
    intro s hs
    have hsnil : s = [] := List.length_eq_zero.mp (Nat.le_zero.mp hs)
    subst hsnil
    have hfind : findSub sep [] = none := by
      unfold findSub
      apply List.find?_eq_none.mpr
      intro j hj
      unfold subAt
      cases sep with
      | nil => exact absurd rfl hne
      | cons c cs => simp [List.isPrefixOf]
    have hlast : lastOccIdx sep [] = none := by
      unfold lastOccIdx
      rw [List.getLast?_eq_none_iff]
      unfold occursList
      apply List.filter_eq_nil_iff.mpr
      intro j hj
      unfold subAt
      cases sep with
      | nil => exact absurd rfl hne
      | cons c cs => simp [List.isPrefixOf]
    rw [pySplitLast_of_find_none sep [] hfind, hlast]
  | succ n ih =>
    intro s hs
    cases hfind : findSub sep s with
    | none =>
      rw [pySplitLast_of_find_none sep s hfind]
      have hlast : lastOccIdx sep s = none := by
        unfold lastOccIdx
        rw [List.getLast?_eq_none_iff]
        unfold occursList
        apply List.filter_eq_nil_iff.mpr
        intro j hj
        have := List.find?_eq_none.mp hfind j hj
        simpa using this
      rw [hlast]
    | some i =>
      have hne' : sep.isEmpty = false := by
        cases sep with
        | nil => exact absurd rfl hne
        | cons c cs => rfl
      rw [pySplitLast_of_find_some sep s hne' i hfind]
      obtain ⟨hsub_i, hmin_i⟩ := find?_range_first _ _ _ hfind
      have hlen_i := subAt_le_length sep s i hne hsub_i
      have hlt : (s.drop (i + sep.length)).length ≤ n := by
        rw [List.length_drop]
        omega
      rw [ih _ hlt]
      cases hlast' : lastOccIdx sep (s.drop (i + sep.length)) with
      | none =>
        have hnone : ∀ q, ¬ subAt sep (s.drop (i + sep.length)) q = true := by
          intro q hq
          have hmem : q ∈ occursList sep (s.drop (i + sep.length)) :=
            (occursList_mem _ _ hne q).mpr hq
          have hnil : occursList sep (s.drop (i + sep.length)) = [] := by
            have := hlast'
            unfold lastOccIdx at this
            exact List.getLast?_eq_none_iff.mp this
          rw [hnil] at hmem
          exact absurd hmem (List.not_mem_nil q)
        have hlast_s : lastOccIdx sep s = some i := by
          apply lastOccIdx_intro sep s hne i hsub_i
          intro q hq
          by_contra hgt
          push_neg at hgt
          have hge : ¬ q < i + sep.length :=
            fun hcon => no_overlap sep s hov hsub_i hq hgt hcon
          push_neg at hge
          apply hnone (q - (i + sep.length))
          unfold subAt
          rw [List.drop_drop]
          have harith : i + sep.length + (q - (i + sep.length)) = q := by omega
          rw [harith]
          exact hq
        rw [hlast_s]
      | some q' =>
        obtain ⟨hsub_q', hub_q'⟩ := lastOccIdx_spec sep _ hne q' hlast'
        have hsub_s : subAt sep s (i + sep.length + q') = true := by
          unfold subAt at hsub_q' ⊢
          rw [List.drop_drop] at hsub_q'
          exact hsub_q'
        have hlast_s : lastOccIdx sep s = some (i + sep.length + q') := by
          apply lastOccIdx_intro sep s hne _ hsub_s
          intro j hj
          by_cases hji : j ≤ i
          · omega
          · push_neg at hji
            have hge : ¬ j < i + sep.length :=
              fun hcon => no_overlap sep s hov hsub_i hj hji hcon
            push_neg at hge
            have hsubt : subAt sep (s.drop (i + sep.length)) (j - (i + sep.length)) =
                true := by
              unfold subAt
              rw [List.drop_drop]
              have harith : i + sep.length + (j - (i + sep.length)) = j := by omega
              rw [harith]
              exact hj
            have := hub_q' _ hsubt
            omega
        rw [hlast_s]
        show (s.drop (i + sep.length)).drop (q' + sep.length) =
          s.drop (i + sep.length + q' + sep.length)
        rw [List.drop_drop]
        congr 1
        omega

lemma marker_ne_nil : marker ≠ [] := by decide

lemma marker_overlapFree : overlapFree marker := by
  unfold overlapFree
  decide

/-- C10: the place-item endpoint always returns the algorithm's message;
when the message contains the marker phrase `placed at location`, the
returned recommended location is the substring after the last occurrence
of the marker with surrounding whitespace stripped, and when the message
does not contain the marker the recommended location is null. -/
theorem claim_C10_location_extraction (message : String) :
    (place_item_response message).message = message
    ∧ (containsSub marker message.toList = true →
        ∃ t, afterLastOccurrence marker message.toList = some t
          ∧ (place_item_response message).recommended_location =
              some ((pyStrip t).asString))
    ∧ (containsSub marker message.toList = false →
        (place_item_response message).recommended_location = none) := by
  refine ⟨rfl, ?_, ?_⟩
  · intro hc
    have hfind : ∃ i, findSub marker message.toList = some i := by
      unfold containsSub at hc
      exact Option.isSome_iff_exists.mp hc
    obtain ⟨i, hi⟩ := hfind
    obtain ⟨hsub, _⟩ := find?_range_first _ _ _ hi
    have hlastsome : ∃ p, lastOccIdx marker message.toList = some p := by
      rw [← Option.isSome_iff_exists]
      unfold lastOccIdx
      rw [Option.isSome_iff_exists]
      have hmem : i ∈ occursList marker message.toList :=
        (occursList_mem _ _ marker_ne_nil i).mpr hsub
      have hnenil : occursList marker message.toList ≠ [] :=
        fun hnil => absurd (hnil ▸ hmem) (List.not_mem_nil i)
      cases hget : (occursList marker message.toList).getLast? with
      | none => exact absurd (List.getLast?_eq_none_iff.mp hget) hnenil
      | some p => exact ⟨p, rfl⟩
    obtain ⟨p, hp⟩ := hlastsome
    refine ⟨message.toList.drop (p + marker.length), ?_, ?_⟩
    · unfold afterLastOccurrence
      rw [hp]
      rfl
    · unfold place_item_response
      simp only [if_pos hc]
      have hsplit := pySplitLast_eq_lastOcc marker marker_ne_nil marker_overlapFree
        message.toList.length message.toList (le_refl _)
      rw [hp] at hsplit
      rw [hsplit]
  · intro hc
    unfold place_item_response
    simp only [hc]
    rfl

/-- Witness for C10 at a concrete message containing the marker. -/
theorem claim_C10_witness :
    containsSub marker ("Item X placed at location A3").toList = true
    ∧ (place_item_response "Item X placed at location A3").recommended_location =
        some "A3" := by
  have h := claim_C10_location_extraction "Item X placed at location A3"
  have hc : containsSub marker ("Item X placed at location A3").toList = true := by
    decide
  obtain ⟨t, ht, hloc⟩ := h.2.1 hc
  have heval : afterLastOccurrence marker ("Item X placed at location A3").toList =
      some (" A3".toList) := by decide
  have hteq : t = " A3".toList := Option.some.inj (ht.symm.trans heval)
  subst hteq
  have hstr : ((pyStrip (" A3".toList)).asString) = "A3" := by decide
  rw [hstr] at hloc
  exact ⟨hc, hloc⟩

end Inventory
